import Mathlib

/-!
# Public-key abstraction layer (`include/iotex/pk.h`)

A shallow embedding of the parts of `pk.h` that carry behaviour: the error
codes, the key-type tag, the build-time computation of
`IOTEX_PK_SIGNATURE_MAX_SIZE`, the key context, and the inline functions
`iotex_pk_get_len`, `iotex_pk_rsa` and `iotex_pk_ec`. The functions that the
header only declares (life cycle, signature verification, DER writers) are
modelled from the specification; each such definition says so.

Conventions of the embedding:
* `size_t` values are naturals reduced modulo `2 ^ w`, `w` being the width of
  `size_t` on the target;
* pointers are naturals, `NULL` is `0`; a pointer to a descriptor is an
  `Option`, `none` being `NULL`;
* a function that writes through a pointer returns the new value of the
  pointee next to its C result.
-/

namespace Iotex

/-! ## Error codes (pk.h lines 29-58) -/

/-- Memory allocation failed. -/
def IOTEX_ERR_PK_ALLOC_FAILED : Int := -0x3F80
/-- Type mismatch, eg attempt to encrypt with an ECDSA key. -/
def IOTEX_ERR_PK_TYPE_MISMATCH : Int := -0x3F00
/-- Bad input parameters to function. -/
def IOTEX_ERR_PK_BAD_INPUT_DATA : Int := -0x3E80
/-- Read/write of file failed. -/
def IOTEX_ERR_PK_FILE_IO_ERROR : Int := -0x3E00
/-- Unsupported key version. -/
def IOTEX_ERR_PK_KEY_INVALID_VERSION : Int := -0x3D80
/-- Invalid key tag or value. -/
def IOTEX_ERR_PK_KEY_INVALID_FORMAT : Int := -0x3D00
/-- Key algorithm is unsupported (only RSA and EC are supported). -/
def IOTEX_ERR_PK_UNKNOWN_PK_ALG : Int := -0x3C80
/-- Private key password can not be empty. -/
def IOTEX_ERR_PK_PASSWORD_REQUIRED : Int := -0x3C00
/-- Given private key password does not allow for correct decryption. -/
def IOTEX_ERR_PK_PASSWORD_MISMATCH : Int := -0x3B80
/-- The pubkey tag or value is invalid (only RSA and EC are supported). -/
def IOTEX_ERR_PK_INVALID_PUBKEY : Int := -0x3B00
/-- The algorithm tag or value is invalid. -/
def IOTEX_ERR_PK_INVALID_ALG : Int := -0x3A80
/-- Elliptic curve is unsupported (only NIST curves are supported). -/
def IOTEX_ERR_PK_UNKNOWN_NAMED_CURVE : Int := -0x3A00
/-- Unavailable feature, e.g. RSA disabled for RSA key. -/
def IOTEX_ERR_PK_FEATURE_UNAVAILABLE : Int := -0x3980
/-- The buffer contains a valid signature followed by more data. -/
def IOTEX_ERR_PK_SIG_LEN_MISMATCH : Int := -0x3900
/-- The output buffer is too small. -/
def IOTEX_ERR_PK_BUFFER_TOO_SMALL : Int := -0x3880

/-- The fifteen `IOTEX_ERR_PK_*` codes, in the order of the header. -/
def pk_error_codes : List Int :=
  [ IOTEX_ERR_PK_ALLOC_FAILED, IOTEX_ERR_PK_TYPE_MISMATCH,
    IOTEX_ERR_PK_BAD_INPUT_DATA, IOTEX_ERR_PK_FILE_IO_ERROR,
    IOTEX_ERR_PK_KEY_INVALID_VERSION, IOTEX_ERR_PK_KEY_INVALID_FORMAT,
    IOTEX_ERR_PK_UNKNOWN_PK_ALG, IOTEX_ERR_PK_PASSWORD_REQUIRED,
    IOTEX_ERR_PK_PASSWORD_MISMATCH, IOTEX_ERR_PK_INVALID_PUBKEY,
    IOTEX_ERR_PK_INVALID_ALG, IOTEX_ERR_PK_UNKNOWN_NAMED_CURVE,
    IOTEX_ERR_PK_FEATURE_UNAVAILABLE, IOTEX_ERR_PK_SIG_LEN_MISMATCH,
    IOTEX_ERR_PK_BUFFER_TOO_SMALL ]

/-! ## Key types (pk.h lines 67-76) -/

/-- Public key types. -/
inductive iotex_pk_type_t
  | IOTEX_PK_NONE
  | IOTEX_PK_RSA
  | IOTEX_PK_ECKEY
  | IOTEX_PK_ECKEY_DH
  | IOTEX_PK_ECDSA
  | IOTEX_PK_RSA_ALT
  | IOTEX_PK_RSASSA_PSS
  | IOTEX_PK_OPAQUE
  deriving DecidableEq, Repr

open iotex_pk_type_t

/-! ## `IOTEX_PK_SIGNATURE_MAX_SIZE` (pk.h lines 89-139) -/

/-- What the preprocessor sees when it reaches line 101 of `pk.h`: which
feature macros are defined, and the values of the size constants that the
included headers (bignum, ecdsa, PSA crypto) export. The constants are sizes
in bytes, taken as naturals. -/
structure pk_build_config where
  IOTEX_RSA_C : Bool
  IOTEX_PK_RSA_ALT_SUPPORT : Bool
  IOTEX_ECDSA_C : Bool
  IOTEX_USE_PSA_CRYPTO : Bool
  IOTEX_MPI_MAX_SIZE : Nat
  IOTEX_ECDSA_MAX_LEN : Nat
  PSA_SIGNATURE_MAX_SIZE : Nat
  PSA_VENDOR_ECDSA_SIGNATURE_MAX_SIZE : Nat
  deriving DecidableEq, Repr

/-- Lines 103-111: the RSA / RSA-ALT block, applied to the current value. -/
def sig_max_rsa_block (c : pk_build_config) (cur : Nat) : Nat :=
  if (c.IOTEX_RSA_C || c.IOTEX_PK_RSA_ALT_SUPPORT) && decide (c.IOTEX_MPI_MAX_SIZE > cur)
  then c.IOTEX_MPI_MAX_SIZE else cur

/-- Lines 113-119: the ECDSA block, applied to the current value. -/
def sig_max_ecdsa_block (c : pk_build_config) (cur : Nat) : Nat :=
  if c.IOTEX_ECDSA_C && decide (c.IOTEX_ECDSA_MAX_LEN > cur)
  then c.IOTEX_ECDSA_MAX_LEN else cur

/-- Lines 122-127: the first block under `IOTEX_USE_PSA_CRYPTO`. -/
def sig_max_psa_block (c : pk_build_config) (cur : Nat) : Nat :=
  if c.PSA_SIGNATURE_MAX_SIZE > cur then c.PSA_SIGNATURE_MAX_SIZE else cur

/-- Lines 129-138: the second block under `IOTEX_USE_PSA_CRYPTO`. -/
def sig_max_psa_ecdsa_block (c : pk_build_config) (cur : Nat) : Nat :=
  if c.PSA_VENDOR_ECDSA_SIGNATURE_MAX_SIZE + 11 > cur
  then c.PSA_VENDOR_ECDSA_SIGNATURE_MAX_SIZE + 11 else cur

/-- The value of the macro `IOTEX_PK_SIGNATURE_MAX_SIZE` after line 139:
it starts at 0 (line 101) and each block in turn redefines it. -/
def IOTEX_PK_SIGNATURE_MAX_SIZE (c : pk_build_config) : Nat :=
  let s0 := 0
  let s1 := sig_max_rsa_block c s0
  let s2 := sig_max_ecdsa_block c s1
  if c.IOTEX_USE_PSA_CRYPTO then
    sig_max_psa_ecdsa_block c (sig_max_psa_block c s2)
  else s2

/-! ## Key descriptor and key context (pk.h lines 171-180) -/

/-- The memory owned by the algorithm backends: the addresses of the live
key-state objects. -/
abbrev Heap := List Nat

/-- Modelled from the spec: `struct iotex_pk_info_t` is only declared in
`pk.h` (line 171), its fields are those the spec lists for a Key Descriptor
(section 3), of which the embedding keeps the type tag, the name, `can_do`,
`get_bitlen`, the allocator and the deallocator. The allocator returns the
address of the new key state, `NULL` (0) on failure. -/
structure iotex_pk_info_t where
  type : iotex_pk_type_t
  name : String
  get_bitlen : Nat → Nat
  can_do : iotex_pk_type_t → Bool
  ctx_alloc_func : Heap → Nat × Heap
  ctx_free_func : Nat → Heap → Heap

/-- Public key container: `pk_info` is the descriptor (`none` is `NULL`),
`pk_ctx` the address of the underlying key state (0 is `NULL`). -/
structure iotex_pk_context where
  pk_info : Option iotex_pk_info_t
  pk_ctx : Nat

/-- The null pointer. -/
def NULL : Nat := 0

/-- Modelled from the spec: `iotex_pk_get_type` is only declared in `pk.h`
(line 687); it returns the type tag of the descriptor, and `IOTEX_PK_NONE`
for a context that has not been set up. -/
def iotex_pk_get_type (ctx : iotex_pk_context) : iotex_pk_type_t :=
  match ctx.pk_info with
  | none => IOTEX_PK_NONE
  | some info => info.type

/-- Modelled from the spec: `iotex_pk_get_bitlen` is only declared in `pk.h`
(line 337); it returns the key size in bits that the descriptor reports for
the key state, as a `size_t` of `w` bits, and 0 for an empty context. -/
def iotex_pk_get_bitlen (w : Nat) (ctx : iotex_pk_context) : Nat :=
  match ctx.pk_info with
  | none => 0
  | some info => info.get_bitlen ctx.pk_ctx % 2 ^ w

/-- Length in bytes of the underlying key (lines 346-349):
`( iotex_pk_get_bitlen( ctx ) + 7 ) / 8` in `size_t` arithmetic. -/
def iotex_pk_get_len (w : Nat) (ctx : iotex_pk_context) : Nat :=
  ((iotex_pk_get_bitlen w ctx + 7) % 2 ^ w) / 8

/-- Quick access to an RSA context inside a PK context (lines 700-709). -/
def iotex_pk_rsa (pk : iotex_pk_context) : Nat :=
  match iotex_pk_get_type pk with
  | IOTEX_PK_RSA => pk.pk_ctx
  | _ => NULL

/-- Quick access to an EC context inside a PK context (lines 724-735). -/
def iotex_pk_ec (pk : iotex_pk_context) : Nat :=
  match iotex_pk_get_type pk with
  | IOTEX_PK_ECKEY => pk.pk_ctx
  | IOTEX_PK_ECKEY_DH => pk.pk_ctx
  | IOTEX_PK_ECDSA => pk.pk_ctx
  | _ => NULL

/-! ## Life cycle of a key context (pk.h lines 219-273, 351-363) -/

/-- Modelled from the spec: `iotex_pk_init` is only declared in `pk.h`
(line 225); it sets descriptor = none and key-state = empty, whatever the
context held. -/
def iotex_pk_init (_ctx : iotex_pk_context) : iotex_pk_context :=
  { pk_info := none, pk_ctx := NULL }

/-- Modelled from the spec: `iotex_pk_setup` is only declared in `pk.h`
(line 273). It fails with BadInput if the context is already set up or the
descriptor is null; otherwise it allocates the key state with the
descriptor's allocator, fails with AllocFailed if that fails, leaving the
context unchanged, and on success binds descriptor and key state together.
The result is the status, the context and the backend memory afterwards. -/
def iotex_pk_setup (ctx : iotex_pk_context) (info : Option iotex_pk_info_t) (heap : Heap) :
    Int × iotex_pk_context × Heap :=
  match info with
  | none => (IOTEX_ERR_PK_BAD_INPUT_DATA, ctx, heap)
  | some i =>
    match ctx.pk_info with
    | some _ => (IOTEX_ERR_PK_BAD_INPUT_DATA, ctx, heap)
    | none =>
      let r := i.ctx_alloc_func heap
      if r.1 = NULL then (IOTEX_ERR_PK_ALLOC_FAILED, ctx, r.2)
      else (0, { pk_info := some i, pk_ctx := r.1 }, r.2)

/-- Modelled from the spec: `iotex_pk_free` is only declared in `pk.h`
(line 238). It is a no-op on a null or empty context; otherwise it releases
the key state with the descriptor's deallocator and resets the context to
empty. The argument is the pointer to the context (`none` is `NULL`); the
result is the pointee and the backend memory afterwards. -/
def iotex_pk_free (ctx : Option iotex_pk_context) (heap : Heap) :
    Option iotex_pk_context × Heap :=
  match ctx with
  | none => (none, heap)
  | some c =>
    match c.pk_info with
    | none => (some c, heap)
    | some info => (some { pk_info := none, pk_ctx := NULL }, info.ctx_free_func c.pk_ctx heap)

/-- Modelled from the spec: `iotex_pk_can_do` is only declared in `pk.h`
(line 363). It answers 1 if the context is set up and its descriptor's
predicate accepts the type, 0 otherwise, and neither allocates nor mutates:
the context and the backend memory are returned as they came. -/
def iotex_pk_can_do (ctx : iotex_pk_context) (type : iotex_pk_type_t) (heap : Heap) :
    Int × iotex_pk_context × Heap :=
  match ctx.pk_info with
  | none => (0, ctx, heap)
  | some info => (if info.can_do type then 1 else 0, ctx, heap)

/-! ## Concrete inputs used below -/

/-- A descriptor of type `t` whose key reports `bits` bits; its allocator
hands out the address `addr` (0 makes it fail) and records it, its
deallocator erases the address. -/
def sample_info (t : iotex_pk_type_t) (bits addr : Nat) : iotex_pk_info_t :=
  { type := t
    name := "sample"
    get_bitlen := fun _ => bits
    can_do := fun t2 => decide (t2 = t)
    ctx_alloc_func := fun h => if addr = 0 then (0, h) else (addr, addr :: h)
    ctx_free_func := fun p h => h.erase p }

/-- A context that has been initialized and not set up. -/
def empty_ctx : iotex_pk_context := { pk_info := none, pk_ctx := NULL }

/-- A context set up with `sample_info t bits addr`, its key state at `addr`. -/
def sample_ctx (t : iotex_pk_type_t) (bits addr : Nat) : iotex_pk_context :=
  { pk_info := some (sample_info t bits addr), pk_ctx := addr }

/-- An ECDSA-only build: bignum and ecdsa export their usual bounds, RSA,
RSA-ALT and PSA crypto are not compiled in. -/
def ecdsa_only_config : pk_build_config :=
  { IOTEX_RSA_C := false
    IOTEX_PK_RSA_ALT_SUPPORT := false
    IOTEX_ECDSA_C := true
    IOTEX_USE_PSA_CRYPTO := false
    IOTEX_MPI_MAX_SIZE := 1024
    IOTEX_ECDSA_MAX_LEN := 141
    PSA_SIGNATURE_MAX_SIZE := 0
    PSA_VENDOR_ECDSA_SIGNATURE_MAX_SIZE := 0 }

/-- A build with RSA and ECDSA and without PSA crypto. -/
def rsa_ecdsa_config : pk_build_config :=
  { IOTEX_RSA_C := true
    IOTEX_PK_RSA_ALT_SUPPORT := false
    IOTEX_ECDSA_C := true
    IOTEX_USE_PSA_CRYPTO := false
    IOTEX_MPI_MAX_SIZE := 1024
    IOTEX_ECDSA_MAX_LEN := 141
    PSA_SIGNATURE_MAX_SIZE := 0
    PSA_VENDOR_ECDSA_SIGNATURE_MAX_SIZE := 0 }

/-! ## Values of the key-type tag (pk.h lines 67-76) -/

/-- The integer value of each enumerator of `iotex_pk_type_t`: the first is
given as 0 (line 68), each following one is its predecessor plus one. -/
def iotex_pk_type_value : iotex_pk_type_t → Nat
  | IOTEX_PK_NONE => 0
  | IOTEX_PK_RSA => 1
  | IOTEX_PK_ECKEY => 2
  | IOTEX_PK_ECKEY_DH => 3
  | IOTEX_PK_ECDSA => 4
  | IOTEX_PK_RSA_ALT => 5
  | IOTEX_PK_RSASSA_PSS => 6
  | IOTEX_PK_OPAQUE => 7

/-- The enumerators of `iotex_pk_type_t` in the order of the header. -/
def iotex_pk_type_members : List iotex_pk_type_t :=
  [ IOTEX_PK_NONE, IOTEX_PK_RSA, IOTEX_PK_ECKEY, IOTEX_PK_ECKEY_DH,
    IOTEX_PK_ECDSA, IOTEX_PK_RSA_ALT, IOTEX_PK_RSASSA_PSS, IOTEX_PK_OPAQUE ]

/-- A build in which the pk module is included for ECDH only: none of RSA,
RSA-ALT, ECDSA and PSA crypto is compiled in, while the included headers
still export their size constants. -/
def ecdh_only_config : pk_build_config :=
  { IOTEX_RSA_C := false
    IOTEX_PK_RSA_ALT_SUPPORT := false
    IOTEX_ECDSA_C := false
    IOTEX_USE_PSA_CRYPTO := false
    IOTEX_MPI_MAX_SIZE := 1024
    IOTEX_ECDSA_MAX_LEN := 141
    PSA_SIGNATURE_MAX_SIZE := 512
    PSA_VENDOR_ECDSA_SIGNATURE_MAX_SIZE := 132 }

/-! ## Signature verification (pk.h lines 78-87, 182-194, 397-486) -/

/-- Modelled from the spec: the hash-algorithm tag `iotex_md_type_t` comes
from `md.h`, which is not among the sources. The engine only asks whether the
tag is "none" and, if not, for the expected digest length, so the tag is
`none` for `IOTEX_MD_NONE` and `some n` for an algorithm with digests of `n`
bytes. -/
abbrev iotex_md_type_t := Option Nat

/-- Options for RSASSA-PSS signature verification (lines 82-87). -/
structure iotex_pk_rsassa_pss_options where
  mgf1_hash_id : iotex_md_type_t
  expected_salt_len : Int

/-- Modelled from the spec: what an algorithm backend finds in a signature
buffer. `valid consumed`: a signature that is valid for the given hash, of
`consumed` bytes, starts the buffer. `invalid code`: any other outcome, with
the negative status `-(code + 1)`. -/
inductive sig_verdict
  | valid (consumed : Nat)
  | invalid (code : Nat)
  deriving DecidableEq, Repr

/-- Modelled from the spec: the status the engine returns for a verdict on a
buffer of `sig_len` bytes: SigLenMismatch if a valid signature is found but
the consumed length is less than the supplied buffer length, success if it is
valid otherwise, the backend's failure status if not. -/
def sig_verdict_status (sig_len : Nat) : sig_verdict → Int
  | sig_verdict.valid consumed =>
    if consumed < sig_len then IOTEX_ERR_PK_SIG_LEN_MISMATCH else 0
  | sig_verdict.invalid code => Int.negSucc code

/-- Modelled from the spec: an elliptic-curve verification as a resumable
computation (section 4.3). `start` builds the state of a fresh computation
from key state, hash algorithm, hash and signature; `step` performs one
operation and either retains a state to continue from or reaches the
verdict; `ops_left` bounds the operations still to do, so the computation
ends. -/
structure ec_restart_machine (σ : Type) where
  start : Nat → iotex_md_type_t → List Nat → List Nat → σ
  step : σ → σ ⊕ sig_verdict
  ops_left : σ → Nat
  step_lt : ∀ s s1, step s = Sum.inl s1 → ops_left s1 < ops_left s

/-- At most `n` operations of the machine from state `s`: the verdict if it
is reached, the state to continue from otherwise. -/
def ec_run {σ : Type} (m : ec_restart_machine σ) : Nat → σ → σ ⊕ sig_verdict
  | 0, s => Sum.inl s
  | n + 1, s =>
    match m.step s with
    | Sum.inl s1 => ec_run m n s1
    | Sum.inr v => Sum.inr v

/-- The machine run to completion, without a budget: `ops_left s + 1`
operations always reach the verdict (`ec_run_finishes`), so the second
branch is never taken. -/
def ec_complete {σ : Type} (m : ec_restart_machine σ) (s : σ) : sig_verdict :=
  match ec_run m (m.ops_left s + 1) s with
  | Sum.inr v => v
  | Sum.inl _ => sig_verdict.invalid 0

/-- Modelled from the spec: the verify entries of the key descriptors, which
the header does not show. `verify_func` serves the keys that are not
elliptic-curve keys, `pss_verify_func` the RSASSA-PSS scheme with its
options, and `ec` is the resumable verification of the elliptic-curve
backend. -/
structure pk_verify_backend (σ : Type) where
  verify_func : Nat → iotex_md_type_t → List Nat → List Nat → sig_verdict
  pss_verify_func :
    Nat → iotex_pk_rsassa_pss_options → iotex_md_type_t → List Nat → List Nat → sig_verdict
  ec : ec_restart_machine σ

/-- The key types whose backend is elliptic-curve: those for which
`iotex_pk_ec` hands out the key state (lines 728-730). -/
def pk_is_ec_type : iotex_pk_type_t → Bool
  | IOTEX_PK_ECKEY => true
  | IOTEX_PK_ECKEY_DH => true
  | IOTEX_PK_ECDSA => true
  | _ => false

/-- Modelled from the spec: with a hash algorithm other than "none" the
engine validates the expected digest length. -/
def pk_hash_len_ok (md_alg : iotex_md_type_t) (hash : List Nat) : Bool :=
  match md_alg with
  | none => true
  | some n => hash.length == n

/-- The verdict of the context's backend on a signature buffer, the
elliptic-curve one being computed without a budget. -/
def pk_verify_verdict {σ : Type} (be : pk_verify_backend σ) (ctx : iotex_pk_context)
    (md_alg : iotex_md_type_t) (hash sig : List Nat) : sig_verdict :=
  if pk_is_ec_type (iotex_pk_get_type ctx) then
    ec_complete be.ec (be.ec.start ctx.pk_ctx md_alg hash sig)
  else be.verify_func ctx.pk_ctx md_alg hash sig

/-- Modelled from the spec: `iotex_pk_verify` is only declared in `pk.h`
(line 424). The context must be set up, else BadInput; a hash whose length
does not match the hash algorithm is rejected with BadInput; otherwise the
status is that of the backend's verdict on the buffer. `hash_len` and
`sig_len` are the lengths of the lists. -/
def iotex_pk_verify {σ : Type} (be : pk_verify_backend σ) (ctx : iotex_pk_context)
    (md_alg : iotex_md_type_t) (hash sig : List Nat) : Int :=
  match ctx.pk_info with
  | none => IOTEX_ERR_PK_BAD_INPUT_DATA
  | some _ =>
    if pk_hash_len_ok md_alg hash then
      sig_verdict_status sig.length (pk_verify_verdict be ctx md_alg hash sig)
    else IOTEX_ERR_PK_BAD_INPUT_DATA

/-- Modelled from the spec: the states of a restart context (section 4.3):
fresh, in progress with the retained state, done. -/
inductive pk_restart_state (σ : Type)
  | fresh
  | in_progress (s : σ)
  | done

/-- Modelled from the spec: what a restartable call returns: the
distinguished "in progress" status (`IOTEX_ERR_ECP_IN_PROGRESS`, declared in
`ecp.h`, not among the sources), or what `iotex_pk_verify` can return. -/
inductive pk_restartable_status
  | in_progress
  | returned (ret : Int)
  deriving DecidableEq, Repr

/-- One restartable call on the elliptic-curve machine from state `s` under
the budget `max_ops`: either the budget is exhausted and the state is
retained, or the verdict is reached and the restart context is done. -/
def pk_restart_resume {σ : Type} (m : ec_restart_machine σ) (max_ops sig_len : Nat) (s : σ) :
    pk_restartable_status × Option (pk_restart_state σ) :=
  match ec_run m max_ops s with
  | Sum.inl s1 => (pk_restartable_status.in_progress, some (pk_restart_state.in_progress s1))
  | Sum.inr v =>
    (pk_restartable_status.returned (sig_verdict_status sig_len v), some pk_restart_state.done)

/-- Modelled from the spec: `iotex_pk_verify_restartable` is only declared
in `pk.h` (line 448). `max_ops` is the caller-global operation budget,
`rs_ctx` the restart context (`none` is `NULL`); the result is the status and
the restart context afterwards. Restart applies only when the backend is
elliptic-curve and a restart context is supplied; otherwise the call behaves
as `iotex_pk_verify`. A call on a restart context that is done and was not
reset is outside the contract; the model answers BadInput. -/
def iotex_pk_verify_restartable {σ : Type} (be : pk_verify_backend σ) (max_ops : Nat)
    (ctx : iotex_pk_context) (md_alg : iotex_md_type_t) (hash sig : List Nat)
    (rs_ctx : Option (pk_restart_state σ)) :
    pk_restartable_status × Option (pk_restart_state σ) :=
  match rs_ctx with
  | none => (pk_restartable_status.returned (iotex_pk_verify be ctx md_alg hash sig), none)
  | some st =>
    if pk_is_ec_type (iotex_pk_get_type ctx) && pk_hash_len_ok md_alg hash then
      match st with
      | pk_restart_state.fresh =>
        pk_restart_resume be.ec max_ops sig.length (be.ec.start ctx.pk_ctx md_alg hash sig)
      | pk_restart_state.in_progress s => pk_restart_resume be.ec max_ops sig.length s
      | pk_restart_state.done =>
        (pk_restartable_status.returned IOTEX_ERR_PK_BAD_INPUT_DATA, some pk_restart_state.done)
    else (pk_restartable_status.returned (iotex_pk_verify be ctx md_alg hash sig), some st)

/-- The caller of section 4.3: re-invoke the same restartable verification
with the same restart context until it no longer returns "in progress";
`none` when `calls` invocations were not enough. -/
def pk_verify_resume_loop {σ : Type} (be : pk_verify_backend σ) (max_ops : Nat)
    (ctx : iotex_pk_context) (md_alg : iotex_md_type_t) (hash sig : List Nat) :
    Nat → Option (pk_restart_state σ) → Option Int
  | 0, _ => none
  | calls + 1, rs_ctx =>
    match iotex_pk_verify_restartable be max_ops ctx md_alg hash sig rs_ctx with
    | (pk_restartable_status.in_progress, rs1) =>
      pk_verify_resume_loop be max_ops ctx md_alg hash sig calls rs1
    | (pk_restartable_status.returned ret, _) => some ret

/-- Modelled from the spec: whether the key type of a set-up context can
perform a signature scheme. The descriptor's predicate has to accept the
scheme, and RSASSA-PSS is a scheme of RSA keys: a context whose type tag is
not `IOTEX_PK_RSA` cannot perform it (sections 4.2 and 8). -/
def pk_key_can_perform (info : iotex_pk_info_t) (scheme : iotex_pk_type_t) : Bool :=
  match scheme with
  | IOTEX_PK_RSASSA_PSS =>
    decide (info.type = IOTEX_PK_RSA) && info.can_do IOTEX_PK_RSASSA_PSS
  | _ => info.can_do scheme

/-- Modelled from the spec: `iotex_pk_verify_ext` is only declared in
`pk.h` (line 483). It is `iotex_pk_verify` with an explicit signature scheme
`type`: it fails with TypeMismatch if the context's key type cannot perform
the scheme; `options` (`none` is `NULL`) must be null unless `type` is
RSASSA-PSS, in which case it supplies the MGF1 hash and the expected salt
length. -/
def iotex_pk_verify_ext {σ : Type} (be : pk_verify_backend σ) (type : iotex_pk_type_t)
    (options : Option iotex_pk_rsassa_pss_options) (ctx : iotex_pk_context)
    (md_alg : iotex_md_type_t) (hash sig : List Nat) : Int :=
  match ctx.pk_info with
  | none => IOTEX_ERR_PK_BAD_INPUT_DATA
  | some info =>
    if pk_key_can_perform info type then
      match type, options with
      | IOTEX_PK_RSASSA_PSS, some o =>
        if pk_hash_len_ok md_alg hash then
          sig_verdict_status sig.length (be.pss_verify_func ctx.pk_ctx o md_alg hash sig)
        else IOTEX_ERR_PK_BAD_INPUT_DATA
      | IOTEX_PK_RSASSA_PSS, none => IOTEX_ERR_PK_BAD_INPUT_DATA
      | _, some _ => IOTEX_ERR_PK_BAD_INPUT_DATA
      | _, none => iotex_pk_verify be ctx md_alg hash sig
    else IOTEX_ERR_PK_TYPE_MISMATCH

/-- A resumable verification for the examples: its state is the number of
operations still to do and the verdict they lead to. It needs 3 operations
per signature byte, takes the first 4 bytes of the buffer for the signature
and accepts it when they repeat the first 4 bytes of the hash. -/
def sample_ec_machine : ec_restart_machine (Nat × sig_verdict) :=
  { start := fun _ _ hash sig =>
      (3 * sig.length,
        if sig.take 4 = hash.take 4 ∧ 4 ≤ sig.length then sig_verdict.valid 4
        else sig_verdict.invalid 0x4DFF)
    step := fun s =>
      match s with
      | (0, v) => Sum.inr v
      | (n + 1, v) => Sum.inl (n, v)
    ops_left := fun s => s.1
    step_lt := by
      intro s s1 h
      obtain ⟨n, v⟩ := s
      cases n with
      | zero => simp at h
      | succ k =>
        simp only [Sum.inl.injEq] at h
        subst h
        exact Nat.lt_succ_self k }

/-- Verify entries for the examples: a non-EC key accepts a buffer that
starts with the hash, a PSS verification accepts nothing. -/
def sample_verify_backend : pk_verify_backend (Nat × sig_verdict) :=
  { verify_func := fun _ _ hash sig =>
      if sig.take hash.length = hash then sig_verdict.valid hash.length
      else sig_verdict.invalid 0x437F
    pss_verify_func := fun _ _ _ _ _ => sig_verdict.invalid 0x437F
    ec := sample_ec_machine }

/-! ## Writing a key in DER (pk.h lines 850-878) -/

/-- Modelled from the spec: the low-level writer works backwards from the
cursor toward the start of the buffer. `p` is the cursor as an offset from
the start; `bytes` go right before it, unless fewer than `bytes.length`
bytes are left (`none`, a negative status in C). The result is the buffer
and the cursor afterwards. -/
def der_write_raw (buf : List Nat) (p : Nat) (bytes : List Nat) : Option (List Nat × Nat) :=
  if p < bytes.length then none
  else some (buf.take (p - bytes.length) ++ bytes ++ buf.drop p, p - bytes.length)

/-- The length octets of ASN.1 DER for a content of `len` bytes: the short
form below 0x80, else the long form with the fewest octets; lengths of more
than four octets are not written. -/
def der_length_octets (len : Nat) : Option (List Nat) :=
  if len < 0x80 then some [len]
  else if len ≤ 0xFF then some [0x81, len]
  else if len ≤ 0xFFFF then some [0x82, len / 0x100, len % 0x100]
  else if len ≤ 0xFFFFFF then some [0x83, len / 0x10000, len / 0x100 % 0x100, len % 0x100]
  else if len ≤ 0xFFFFFFFF then
    some [0x84, len / 0x1000000, len / 0x10000 % 0x100, len / 0x100 % 0x100, len % 0x100]
  else none

/-- Modelled from the spec: the fields of a structure written back-to-front,
the field to be written first coming first in the list; the result is the
buffer, the cursor and the number of bytes written. -/
def der_write_fields (buf : List Nat) (p : Nat) :
    List (List Nat) → Option (List Nat × Nat × Nat)
  | [] => some (buf, p, 0)
  | f :: rest =>
    match der_write_raw buf p f with
    | none => none
    | some (buf1, p1) =>
      match der_write_fields buf1 p1 rest with
      | none => none
      | some (buf2, p2, len) => some (buf2, p2, len + f.length)

/-- Modelled from the spec: a DER SEQUENCE written into `buf` from its end:
the cursor starts at `buf + size`, the fields are written last field first,
then the length octets, which are only known at that point, then the
SEQUENCE tag 0x30. The result is the number of bytes written and the buffer
afterwards, `none` on failure. -/
def pk_write_der_sequence (buf : List Nat) (fields : List (List Nat)) :
    Option (Nat × List Nat) :=
  match der_write_fields buf buf.length fields.reverse with
  | none => none
  | some (buf1, p1, len) =>
    match der_length_octets len with
    | none => none
    | some octets =>
      match der_write_raw buf1 p1 octets with
      | none => none
      | some (buf2, p2) =>
        match der_write_raw buf2 p2 [0x30] with
        | none => none
        | some (buf3, _) => some (len + octets.length + 1, buf3)

/-- The DER encoding of a SEQUENCE with the given encoded fields, read from
its first byte on: tag, length octets, fields in order. -/
def der_sequence (fields : List (List Nat)) : Option (List Nat) :=
  match der_length_octets fields.flatten.length with
  | none => none
  | some octets => some (0x30 :: (octets ++ fields.flatten))

/-- Modelled from the spec: the key-type-specific encoders of the key
codec, which the header does not show: the encoded fields, in order, of the
private-key structure (PKCS#1 or SEC1) and of the SubjectPublicKeyInfo of
the key of the given type and key state; `none` for a key that cannot be
written. -/
structure pk_der_codec where
  key_fields : iotex_pk_type_t → Nat → Option (List (List Nat))
  pubkey_fields : iotex_pk_type_t → Nat → Option (List (List Nat))

/-- Modelled from the spec: `iotex_pk_write_key_der` is only declared in
`pk.h` (line 864): the private key is written as a DER structure at the end
of the buffer `buf` of `size = buf.length` bytes; on success the result is
the length of the data written and the buffer afterwards. -/
def iotex_pk_write_key_der (codec : pk_der_codec) (ctx : iotex_pk_context) (buf : List Nat) :
    Option (Nat × List Nat) :=
  match ctx.pk_info with
  | none => none
  | some info =>
    match codec.key_fields info.type ctx.pk_ctx with
    | none => none
    | some fields => pk_write_der_sequence buf fields

/-- Modelled from the spec: `iotex_pk_write_pubkey_der` is only declared in
`pk.h` (line 878): as `iotex_pk_write_key_der`, for the
SubjectPublicKeyInfo structure of the public key. -/
def iotex_pk_write_pubkey_der (codec : pk_der_codec) (ctx : iotex_pk_context)
    (buf : List Nat) : Option (Nat × List Nat) :=
  match ctx.pk_info with
  | none => none
  | some info =>
    match codec.pubkey_fields info.type ctx.pk_ctx with
    | none => none
    | some fields => pk_write_der_sequence buf fields

/-- A codec for the examples: an RSA private key is a version and two
integers, an RSA public key an algorithm identifier and a bit string; other
keys cannot be written. -/
def sample_der_codec : pk_der_codec :=
  { key_fields := fun t _ =>
      match t with
      | IOTEX_PK_RSA => some [[2, 1, 0], [2, 1, 33], [2, 1, 3]]
      | _ => none
    pubkey_fields := fun t _ =>
      match t with
      | IOTEX_PK_RSA => some [[48, 2, 5, 0], [3, 2, 0, 33]]
      | _ => none }

/-! ## ECDSA signatures: raw `r || s` and ASN.1 (pk.h lines 129-138) -/

/-- Modelled from the spec: the content octets of the DER INTEGER for a
number given as unsigned big-endian bytes of fixed width: the leading zero
bytes are dropped, one zero byte is put in front when the first byte left
has its top bit set, and the number 0 is the single byte 0. -/
def der_integer_content (v : List Nat) : List Nat :=
  match v.dropWhile (fun b => b == 0) with
  | [] => [0]
  | b :: rest => if 0x80 ≤ b then 0 :: b :: rest else b :: rest

/-- The DER INTEGER for such a number: the type byte 0x02, the length
octets, the content octets. -/
def der_integer (v : List Nat) : Option (List Nat) :=
  match der_length_octets (der_integer_content v).length with
  | none => none
  | some octets => some (0x02 :: (octets ++ der_integer_content v))

/-- Modelled from the spec: the conversion of an elliptic-curve signature
from the raw concatenation of `r` and `s` that the key store uses to the
ASN.1 representation, a SEQUENCE of two INTEGERs (comment at lines 130-135).
`r` is the first half of the raw bytes, `s` the rest. -/
def ecdsa_sig_asn1_from_raw (raw : List Nat) : Option (List Nat) :=
  match der_integer (raw.take (raw.length / 2)), der_integer (raw.drop (raw.length / 2)) with
  | some r, some s => der_sequence [r, s]
  | _, _ => none

/-- An RSA context for the examples whose descriptor accepts the schemes
RSA and RSASSA-PSS. -/
def sample_rsa_pss_ctx : iotex_pk_context :=
  { pk_info := some
      { type := IOTEX_PK_RSA
        name := "RSA"
        get_bitlen := fun _ => 2048
        can_do := fun t => decide (t = IOTEX_PK_RSA ∨ t = IOTEX_PK_RSASSA_PSS)
        ctx_alloc_func := fun h => (16, 16 :: h)
        ctx_free_func := fun a h => h.erase a }
    pk_ctx := 16 }

/-- An ECDSA-typed context for the examples whose descriptor's predicate
accepts every scheme. -/
def sample_ecdsa_any_ctx : iotex_pk_context :=
  { pk_info := some
      { type := IOTEX_PK_ECDSA
        name := "ECDSA"
        get_bitlen := fun _ => 256
        can_do := fun _ => true
        ctx_alloc_func := fun h => (16, 16 :: h)
        ctx_free_func := fun a h => h.erase a }
    pk_ctx := 16 }

/-! ## Auxiliary facts -/

/-- Rounding up a quotient by 8: the ceiling of `b / 8` is `(b + 7) / 8`. -/
theorem nat_ceil_div8 (b : Nat) : ⌈(b : ℚ) / 8⌉₊ = (b + 7) / 8 := by
  apply le_antisymm
  · rw [Nat.ceil_le, div_le_iff₀ (by norm_num)]
    have h : b ≤ (b + 7) / 8 * 8 := by omega
    exact_mod_cast h
  · have h := Nat.le_ceil ((b : ℚ) / 8)
    rw [div_le_iff₀ (by norm_num)] at h
    have h2 : b ≤ ⌈(b : ℚ) / 8⌉₊ * 8 := by exact_mod_cast h
    omega

/-- The wrapped sum of `iotex_pk_get_len` is the plain sum as long as the
bit length leaves room for the 7 that is added. -/
theorem wrap_add_seven_div (w b : Nat) (h : b ≤ 2 ^ w - 8) :
    ((b + 7) % 2 ^ w) / 8 = (b + 7) / 8 := by
  by_cases hw : 8 ≤ 2 ^ w
  · rw [Nat.mod_eq_of_lt (by omega)]
  · have hb : b = 0 := by omega
    subst hb
    have h1 : (0 + 7) % 2 ^ w < 8 :=
      lt_of_lt_of_le (Nat.mod_lt _ (Nat.pos_of_ne_zero (by positivity))) (by omega)
    rw [Nat.div_eq_of_lt h1]

/-- The blocks of lines 101-139 compute a maximum: of 0 and of the bounds
of the mechanisms whose feature macro is defined. -/
theorem signature_max_size_formula (c : pk_build_config) :
    IOTEX_PK_SIGNATURE_MAX_SIZE c =
      max (max (if c.IOTEX_RSA_C = true ∨ c.IOTEX_PK_RSA_ALT_SUPPORT = true
                then c.IOTEX_MPI_MAX_SIZE else 0)
               (if c.IOTEX_ECDSA_C = true then c.IOTEX_ECDSA_MAX_LEN else 0))
          (if c.IOTEX_USE_PSA_CRYPTO = true
           then max c.PSA_SIGNATURE_MAX_SIZE (c.PSA_VENDOR_ECDSA_SIGNATURE_MAX_SIZE + 11)
           else 0) := by
  obtain ⟨rsa, alt, ecdsa, psa, mpi, ecl, psas, psav⟩ := c
  simp only [IOTEX_PK_SIGNATURE_MAX_SIZE, sig_max_rsa_block, sig_max_ecdsa_block,
    sig_max_psa_block, sig_max_psa_ecdsa_block]
  cases rsa <;> cases alt <;> cases ecdsa <;> cases psa <;> simp <;>
    (repeat' split) <;> omega

/-- A `size_t` value: what `iotex_pk_get_bitlen` returns fits `w` bits. -/
theorem get_bitlen_lt (w : Nat) (ctx : iotex_pk_context) :
    iotex_pk_get_bitlen w ctx < 2 ^ w := by
  unfold iotex_pk_get_bitlen
  cases ctx.pk_info with
  | none => exact Nat.pos_of_ne_zero (by positivity)
  | some info => exact Nat.mod_lt _ (Nat.pos_of_ne_zero (by positivity))

/-- Above `2 ^ w - 8` the wrapped sum of `iotex_pk_get_len` is below 8, so
the quotient is 0. -/
theorem wrap_add_seven_div_large (w b : Nat) (hw : 8 ≤ 2 ^ w) (h1 : 2 ^ w - 8 < b)
    (h2 : b < 2 ^ w) : ((b + 7) % 2 ^ w) / 8 = 0 := by
  have h3 : (b + 7) % 2 ^ w = b + 7 - 2 ^ w := by
    rw [Nat.mod_eq_sub_mod (by omega), Nat.mod_eq_of_lt (by omega)]
  rw [h3]
  exact Nat.div_eq_of_lt (by omega)

/-- The width of `size_t` is at least 3 bits, so `2 ^ w` is at least 8. -/
theorem eight_le_two_pow (w : Nat) (hw : 3 ≤ w) : 8 ≤ 2 ^ w := by
  calc 8 = 2 ^ 3 := by norm_num
    _ ≤ 2 ^ w := Nat.pow_le_pow_right (by norm_num) hw

/-- With more operations allowed than are left, the machine reaches its
verdict. -/
theorem ec_run_finishes {σ : Type} (m : ec_restart_machine σ) :
    ∀ (n : Nat) (s : σ), m.ops_left s < n → ∃ v, ec_run m n s = Sum.inr v := by
  intro n
  induction n with
  | zero => intro s h; omega
  | succ k ih =>
    intro s h
    cases hs : m.step s with
    | inl s1 =>
      have h1 := m.step_lt s s1 hs
      obtain ⟨v, hv⟩ := ih s1 (by omega)
      exact ⟨v, by simp only [ec_run, hs, hv]⟩
    | inr v => exact ⟨v, by simp only [ec_run, hs]⟩

/-- A verdict that is reached stays the result when more operations are
allowed. -/
theorem ec_run_stable {σ : Type} (m : ec_restart_machine σ) :
    ∀ (n : Nat) (s : σ) (v : sig_verdict), ec_run m n s = Sum.inr v →
      ∀ k, ec_run m (n + k) s = Sum.inr v := by
  intro n
  induction n with
  | zero => intro s v h; simp [ec_run] at h
  | succ j ih =>
    intro s v h k
    rw [show j + 1 + k = (j + k) + 1 by omega]
    cases hs : m.step s with
    | inl s1 =>
      simp only [ec_run, hs] at h ⊢
      exact ih s1 v h k
    | inr v1 =>
      simp only [ec_run, hs] at h ⊢
      exact h

/-- Whatever the number of operations allowed, a verdict that is reached is
the one of the run to completion. -/
theorem ec_complete_of_run {σ : Type} (m : ec_restart_machine σ) (n : Nat) (s : σ)
    (v : sig_verdict) (h : ec_run m n s = Sum.inr v) : ec_complete m s = v := by
  obtain ⟨v1, hv1⟩ := ec_run_finishes m (m.ops_left s + 1) s (by omega)
  have a := ec_run_stable m n s v h (m.ops_left s + 1)
  have b := ec_run_stable m (m.ops_left s + 1) s v1 hv1 n
  rw [show m.ops_left s + 1 + n = n + (m.ops_left s + 1) by omega, a] at b
  have hvv : v = v1 := by simpa using b
  unfold ec_complete
  rw [hv1, hvv]

/-- One operation that does not reach the verdict leaves the verdict of the
run to completion as it was. -/
theorem ec_complete_step {σ : Type} (m : ec_restart_machine σ) (s s1 : σ)
    (h : m.step s = Sum.inl s1) : ec_complete m s = ec_complete m s1 := by
  obtain ⟨v, hv⟩ := ec_run_finishes m (m.ops_left s1 + 1) s1 (by omega)
  have h2 : ec_run m (m.ops_left s1 + 1 + 1) s = Sum.inr v := by
    rw [ec_run]
    simp only [h]
    exact hv
  rw [ec_complete_of_run m _ s v h2, ec_complete_of_run m _ s1 v hv]

/-- A run that pauses after `n` operations has made progress by `n` and
retains a state with the same verdict to come. -/
theorem ec_run_pause {σ : Type} (m : ec_restart_machine σ) :
    ∀ (n : Nat) (s s1 : σ), ec_run m n s = Sum.inl s1 →
      ec_complete m s1 = ec_complete m s ∧ m.ops_left s1 + n ≤ m.ops_left s := by
  intro n
  induction n with
  | zero =>
    intro s s1 h
    simp only [ec_run, Sum.inl.injEq] at h
    subst h
    exact ⟨rfl, le_refl _⟩
  | succ k ih =>
    intro s s1 h
    cases hs : m.step s with
    | inl s2 =>
      simp only [ec_run, hs] at h
      obtain ⟨e, l⟩ := ih s2 s1 h
      have hlt := m.step_lt s s2 hs
      exact ⟨by rw [e, ec_complete_step m s s2 hs], by omega⟩
    | inr v => simp [ec_run, hs] at h

/-- Re-invoking a paused elliptic-curve verification under a budget of at
least one operation ends, after at most `ops_left s + 1` calls, with the
status of the verdict of the run to completion. -/
theorem resume_loop_in_progress {σ : Type} (be : pk_verify_backend σ) (max_ops : Nat)
    (hpos : 0 < max_ops) (ctx : iotex_pk_context) (md_alg : iotex_md_type_t)
    (hash sig : List Nat)
    (hec : (pk_is_ec_type (iotex_pk_get_type ctx) && pk_hash_len_ok md_alg hash) = true) :
    ∀ (calls : Nat) (s : σ), be.ec.ops_left s < calls →
      pk_verify_resume_loop be max_ops ctx md_alg hash sig calls
          (some (pk_restart_state.in_progress s))
        = some (sig_verdict_status sig.length (ec_complete be.ec s)) := by
  intro calls
  induction calls with
  | zero => intro s h; omega
  | succ k ih =>
    intro s h
    cases hr : ec_run be.ec max_ops s with
    | inl s1 =>
      obtain ⟨e, l⟩ := ec_run_pause be.ec max_ops s s1 hr
      simp only [pk_verify_resume_loop, iotex_pk_verify_restartable, hec, if_true,
        pk_restart_resume, hr]
      rw [ih s1 (by omega), e]
    | inr v =>
      simp only [pk_verify_resume_loop, iotex_pk_verify_restartable, hec, if_true,
        pk_restart_resume, hr]
      rw [ec_complete_of_run be.ec max_ops s v hr]

/-- An elliptic-curve context is set up. -/
theorem pk_info_some_of_ec_type (ctx : iotex_pk_context)
    (h : pk_is_ec_type (iotex_pk_get_type ctx) = true) : ∃ info, ctx.pk_info = some info := by
  cases hc : ctx.pk_info with
  | none => simp [iotex_pk_get_type, hc, pk_is_ec_type] at h
  | some info => exact ⟨info, rfl⟩

/-- On a set-up elliptic-curve context with a well-formed hash,
`iotex_pk_verify` returns the status of the machine run to completion. -/
theorem verify_of_ec {σ : Type} (be : pk_verify_backend σ) (ctx : iotex_pk_context)
    (md_alg : iotex_md_type_t) (hash sig : List Nat)
    (hec : (pk_is_ec_type (iotex_pk_get_type ctx) && pk_hash_len_ok md_alg hash) = true) :
    iotex_pk_verify be ctx md_alg hash sig =
      sig_verdict_status sig.length
        (ec_complete be.ec (be.ec.start ctx.pk_ctx md_alg hash sig)) := by
  rw [Bool.and_eq_true] at hec
  obtain ⟨h1, h2⟩ := hec
  obtain ⟨info, hi⟩ := pk_info_some_of_ec_type ctx h1
  simp only [iotex_pk_verify, hi, h2, if_true, pk_verify_verdict, h1]

/-- One backward write under the invariant of the writers: the buffer is
the untouched start of the original buffer followed by what was written. -/
theorem der_write_raw_inv (orig buf acc bytes buf1 : List Nat) (p p1 : Nat)
    (hbuf : buf = orig.take p ++ acc) (hp : p + acc.length = orig.length)
    (h : der_write_raw buf p bytes = some (buf1, p1)) :
    buf1 = orig.take p1 ++ (bytes ++ acc) ∧ p1 + (bytes ++ acc).length = orig.length ∧
      p1 + bytes.length = p := by
  unfold der_write_raw at h
  split at h
  · exact absurd h (by simp)
  · rename_i hlt
    simp only [Option.some.injEq, Prod.mk.injEq] at h
    obtain ⟨h1, h2⟩ := h
    have hlen : (orig.take p).length = p := by
      rw [List.length_take]; omega
    have htake : buf.take (p - bytes.length) = orig.take (p - bytes.length) := by
      rw [hbuf, List.take_append_of_le_length (by omega), List.take_take]
      congr 1
      omega
    have hdrop : buf.drop p = acc := by
      rw [hbuf]
      exact List.drop_left' hlen
    refine ⟨?_, ?_, ?_⟩
    · rw [← h1, ← h2, htake, hdrop, List.append_assoc]
    · rw [← h2, List.length_append]; omega
    · omega

/-- The fields written back-to-front end up in front of what was written
before, in the reverse of the order of writing. -/
theorem der_write_fields_inv (orig : List Nat) :
    ∀ (fs : List (List Nat)) (buf acc buf2 : List Nat) (p p2 len : Nat),
      buf = orig.take p ++ acc → p + acc.length = orig.length →
      der_write_fields buf p fs = some (buf2, p2, len) →
      buf2 = orig.take p2 ++ (fs.reverse.flatten ++ acc) ∧
        p2 + (fs.reverse.flatten ++ acc).length = orig.length ∧
        len = fs.reverse.flatten.length := by
  intro fs
  induction fs with
  | nil =>
    intro buf acc buf2 p p2 len hbuf hp h
    simp only [der_write_fields, Option.some.injEq, Prod.mk.injEq] at h
    obtain ⟨h1, h2, h3⟩ := h
    subst h1 h2 h3
    simpa using ⟨hbuf, hp⟩
  | cons f rest ih =>
    intro buf acc buf2 p p2 len hbuf hp h
    unfold der_write_fields at h
    cases hw : der_write_raw buf p f with
    | none => simp [hw] at h
    | some r =>
      obtain ⟨buf1, p1⟩ := r
      obtain ⟨a1, a2, _⟩ := der_write_raw_inv orig buf acc f buf1 p p1 hbuf hp hw
      cases hr : der_write_fields buf1 p1 rest with
      | none => simp [hw, hr] at h
      | some r2 =>
        obtain ⟨b2, q2, l2⟩ := r2
        simp only [hw, hr, Option.some.injEq, Prod.mk.injEq] at h
        obtain ⟨h1, h2, h3⟩ := h
        subst h1 h2 h3
        obtain ⟨c1, c2, c3⟩ := ih buf1 (f ++ acc) b2 p1 q2 l2 a1 a2 hr
        refine ⟨?_, ?_, ?_⟩
        · rw [c1]; simp
        · rw [← c2]; simp
        · rw [c3]; simp

/-- What a successful `pk_write_der_sequence` leaves: the written length
`L` is positive and within the buffer, the buffer keeps its size, its last
`L` bytes are the DER encoding of the SEQUENCE and the bytes before are
untouched. -/
theorem pk_write_der_sequence_layout (buf : List Nat) (fields : List (List Nat)) (L : Nat)
    (out : List Nat) (h : pk_write_der_sequence buf fields = some (L, out)) :
    0 < L ∧ L ≤ buf.length ∧ out.length = buf.length ∧
      (∃ der, der_sequence fields = some der ∧ der.length = L ∧
        out.drop (buf.length - L) = der) ∧
      out.take (buf.length - L) = buf.take (buf.length - L) := by
  unfold pk_write_der_sequence at h
  cases h1 : der_write_fields buf buf.length fields.reverse with
  | none => simp [h1] at h
  | some r1 =>
    obtain ⟨buf1, p1, len⟩ := r1
    obtain ⟨a1, a2, a3⟩ := der_write_fields_inv buf fields.reverse buf [] buf1 buf.length p1 len
      (by simp) (by simp) h1
    rw [List.reverse_reverse] at a1 a2 a3
    cases h2 : der_length_octets len with
    | none => simp [h1, h2] at h
    | some octets =>
      cases h3 : der_write_raw buf1 p1 octets with
      | none => simp [h1, h2, h3] at h
      | some r3 =>
        obtain ⟨buf2, p2⟩ := r3
        obtain ⟨b1, b2, _⟩ := der_write_raw_inv buf buf1 _ octets buf2 p1 p2 a1 a2 h3
        cases h4 : der_write_raw buf2 p2 [0x30] with
        | none => simp [h1, h2, h3, h4] at h
        | some r4 =>
          obtain ⟨buf3, p3⟩ := r4
          obtain ⟨c1, c2, _⟩ := der_write_raw_inv buf buf2 _ [0x30] buf3 p2 p3 b1 b2 h4
          simp only [h1, h2, h3, h4, Option.some.injEq, Prod.mk.injEq] at h
          obtain ⟨hL, hout⟩ := h
          subst hout
          have hder : der_sequence fields = some (0x30 :: (octets ++ fields.flatten)) := by
            simp only [der_sequence, ← a3, h2]
          have hlen : (0x30 :: (octets ++ fields.flatten)).length = L := by
            rw [← hL, a3]; simp; omega
          have hc2 : p3 + L = buf.length := by
            rw [← c2, ← hL, a3]; simp; omega
          have hp3 : buf.length - L = p3 := by omega
          have htl : (buf.take p3).length = p3 := by
            rw [List.length_take]; omega
          have hc1 : buf3 = buf.take p3 ++ (0x30 :: (octets ++ fields.flatten)) := by
            rw [c1]; simp
          refine ⟨by omega, by omega, ?_, ⟨_, hder, hlen, ?_⟩, ?_⟩
          · rw [hc1, List.length_append, htl, hlen]; omega
          · rw [hp3, hc1]
            exact List.drop_left' htl
          · rw [hp3, hc1]
            exact List.take_left' htl

/-- The content octets of a DER INTEGER: at least one byte, and at most one
byte more than the fixed-width number has. -/
theorem der_integer_content_length (v : List Nat) :
    1 ≤ (der_integer_content v).length ∧ (der_integer_content v).length ≤ v.length + 1 := by
  have hle : (v.dropWhile (fun b => b == 0)).length ≤ v.length :=
    (List.dropWhile_sublist _).length_le
  unfold der_integer_content
  cases hd : v.dropWhile (fun b => b == 0) with
  | nil => simp
  | cons b rest =>
    rw [hd] at hle
    simp only [List.length_cons] at hle
    by_cases hb : 0x80 ≤ b
    · simp only [hb, if_true, List.length_cons]
      omega
    · simp only [hb, if_false, List.length_cons]
      omega

/-- The length octets of a content of at most 255 bytes: one octet below
128 bytes, two otherwise. -/
theorem der_length_octets_short (len : Nat) (h : len ≤ 0xFF) :
    ∃ octets, der_length_octets len = some octets ∧ octets.length ≤ 2 ∧
      (len < 0x80 → octets.length = 1) := by
  unfold der_length_octets
  by_cases h1 : len < 0x80
  · exact ⟨[len], by simp [h1], by simp, fun _ => rfl⟩
  · exact ⟨[0x81, len], by simp [h1, h], by simp, fun hc => absurd hc h1⟩

/-- The shape of the ASN.1 representation of a raw signature: a SEQUENCE
header (type byte 0x30, length octets `lq`) and two INTEGERs (type byte
0x02, length octets `lr`, `ls`, content octets `cr`, `cs`). -/
theorem ecdsa_sig_asn1_shape (raw der : List Nat)
    (h : ecdsa_sig_asn1_from_raw raw = some der) :
    ∃ lq lr ls : List Nat,
      der_length_octets (der_integer_content (raw.take (raw.length / 2))).length = some lr ∧
      der_length_octets (der_integer_content (raw.drop (raw.length / 2))).length = some ls ∧
      der_length_octets
        ((1 + lr.length + (der_integer_content (raw.take (raw.length / 2))).length) +
         (1 + ls.length + (der_integer_content (raw.drop (raw.length / 2))).length)) = some lq ∧
      der = 0x30 :: (lq ++ ((0x02 :: (lr ++ der_integer_content (raw.take (raw.length / 2)))) ++
              (0x02 :: (ls ++ der_integer_content (raw.drop (raw.length / 2)))))) := by
  unfold ecdsa_sig_asn1_from_raw der_integer at h
  cases h1 : der_length_octets (der_integer_content (raw.take (raw.length / 2))).length with
  | none => simp [h1] at h
  | some lr =>
    cases h2 : der_length_octets (der_integer_content (raw.drop (raw.length / 2))).length with
    | none => simp [h1, h2] at h
    | some ls =>
      simp only [h1, h2, der_sequence] at h
      have hlen : ([0x02 :: (lr ++ der_integer_content (raw.take (raw.length / 2))),
            0x02 :: (ls ++ der_integer_content (raw.drop (raw.length / 2)))].flatten).length
          = (1 + lr.length + (der_integer_content (raw.take (raw.length / 2))).length) +
            (1 + ls.length + (der_integer_content (raw.drop (raw.length / 2))).length) := by
        simp
        omega
      rw [hlen] at h
      cases h3 : der_length_octets
          ((1 + lr.length + (der_integer_content (raw.take (raw.length / 2))).length) +
           (1 + ls.length + (der_integer_content (raw.drop (raw.length / 2))).length)) with
      | none => simp [h3] at h
      | some lq =>
        simp only [h3, Option.some.injEq] at h
        refine ⟨lq, lr, ls, rfl, rfl, h3, ?_⟩
        rw [← h]
        simp

/-- The ASN.1 representation of a raw signature, given the length octets
of its three headers. -/
theorem ecdsa_sig_asn1_of_octets (raw lq lr ls : List Nat)
    (h1 : der_length_octets (der_integer_content (raw.take (raw.length / 2))).length = some lr)
    (h2 : der_length_octets (der_integer_content (raw.drop (raw.length / 2))).length = some ls)
    (h3 : der_length_octets
        ((1 + lr.length + (der_integer_content (raw.take (raw.length / 2))).length) +
         (1 + ls.length + (der_integer_content (raw.drop (raw.length / 2))).length)) = some lq) :
    ecdsa_sig_asn1_from_raw raw =
      some (0x30 :: (lq ++ ((0x02 :: (lr ++ der_integer_content (raw.take (raw.length / 2)))) ++
              (0x02 :: (ls ++ der_integer_content (raw.drop (raw.length / 2))))))) := by
  have hlen : ([0x02 :: (lr ++ der_integer_content (raw.take (raw.length / 2))),
        0x02 :: (ls ++ der_integer_content (raw.drop (raw.length / 2)))].flatten).length
      = (1 + lr.length + (der_integer_content (raw.take (raw.length / 2))).length) +
        (1 + ls.length + (der_integer_content (raw.drop (raw.length / 2))).length) := by
    simp
    omega
  unfold ecdsa_sig_asn1_from_raw der_integer
  simp only [h1, h2, der_sequence]
  rw [hlen]
  simp [h3]

/-- C2: for every key context `pk`, `iotex_pk_rsa pk` is the key-state
reference `pk.pk_ctx` when `iotex_pk_get_type pk` is `IOTEX_PK_RSA`, and
`NULL` for every other key type. -/
theorem iotex_pk_rsa_by_type (pk : iotex_pk_context) :
    iotex_pk_rsa pk =
      if iotex_pk_get_type pk = IOTEX_PK_RSA then pk.pk_ctx else NULL := by
  unfold iotex_pk_rsa
  cases iotex_pk_get_type pk <;> simp

/-- C3: for every key context `pk`, `iotex_pk_ec pk` is the key-state
reference `pk.pk_ctx` when `iotex_pk_get_type pk` is `IOTEX_PK_ECKEY`,
`IOTEX_PK_ECKEY_DH` or `IOTEX_PK_ECDSA`, and `NULL` for every other key
type. -/
theorem iotex_pk_ec_by_type (pk : iotex_pk_context) :
    iotex_pk_ec pk =
      if iotex_pk_get_type pk = IOTEX_PK_ECKEY ∨ iotex_pk_get_type pk = IOTEX_PK_ECKEY_DH ∨
          iotex_pk_get_type pk = IOTEX_PK_ECDSA
      then pk.pk_ctx else NULL := by
  unfold iotex_pk_ec
  cases iotex_pk_get_type pk <;> simp

/-! ## C4, C5: `IOTEX_PK_SIGNATURE_MAX_SIZE` -/

/-- C4 (as stated) fails: in an ECDSA-only build with
`IOTEX_MPI_MAX_SIZE = 1024` and `IOTEX_ECDSA_MAX_LEN = 141` the macro is 141,
not the maximum 1024 of the two constants. -/
theorem signature_max_size_ne_max_ecdsa_only :
    IOTEX_PK_SIGNATURE_MAX_SIZE ecdsa_only_config = 141 ∧
    max ecdsa_only_config.IOTEX_MPI_MAX_SIZE ecdsa_only_config.IOTEX_ECDSA_MAX_LEN = 1024 ∧
    IOTEX_PK_SIGNATURE_MAX_SIZE ecdsa_only_config ≠
      max ecdsa_only_config.IOTEX_MPI_MAX_SIZE ecdsa_only_config.IOTEX_ECDSA_MAX_LEN := by
  decide

/-- C4 (amended): for every build configuration,
`IOTEX_PK_SIGNATURE_MAX_SIZE` is the maximum of 0 and the bounds of the
mechanisms that are compiled in: `IOTEX_MPI_MAX_SIZE` if RSA or RSA-ALT is,
`IOTEX_ECDSA_MAX_LEN` if ECDSA is, `PSA_SIGNATURE_MAX_SIZE` and
`PSA_VENDOR_ECDSA_SIGNATURE_MAX_SIZE + 11` if PSA crypto is. When RSA or
RSA-ALT and ECDSA are compiled in and PSA crypto is not, that is the maximum
of `IOTEX_MPI_MAX_SIZE` and `IOTEX_ECDSA_MAX_LEN`. -/
theorem signature_max_size_eq_max_compiled_in (c : pk_build_config) :
    IOTEX_PK_SIGNATURE_MAX_SIZE c =
      max (max (if c.IOTEX_RSA_C = true ∨ c.IOTEX_PK_RSA_ALT_SUPPORT = true
                then c.IOTEX_MPI_MAX_SIZE else 0)
               (if c.IOTEX_ECDSA_C = true then c.IOTEX_ECDSA_MAX_LEN else 0))
          (if c.IOTEX_USE_PSA_CRYPTO = true
           then max c.PSA_SIGNATURE_MAX_SIZE (c.PSA_VENDOR_ECDSA_SIGNATURE_MAX_SIZE + 11)
           else 0) ∧
    ((c.IOTEX_RSA_C = true ∨ c.IOTEX_PK_RSA_ALT_SUPPORT = true) →
      c.IOTEX_ECDSA_C = true → c.IOTEX_USE_PSA_CRYPTO = false →
      IOTEX_PK_SIGNATURE_MAX_SIZE c = max c.IOTEX_MPI_MAX_SIZE c.IOTEX_ECDSA_MAX_LEN) := by
  refine ⟨signature_max_size_formula c, fun h1 h2 h3 => ?_⟩
  rw [signature_max_size_formula c, if_pos h1, if_pos h2, h3]
  simp

/-- The amended C4 at a build with RSA and ECDSA and without PSA crypto:
the macro is 1024, the maximum of 1024 and 141. -/
theorem signature_max_size_eq_max_compiled_in_witness :
    IOTEX_PK_SIGNATURE_MAX_SIZE rsa_ecdsa_config = 1024 ∧
    IOTEX_PK_SIGNATURE_MAX_SIZE rsa_ecdsa_config =
      max rsa_ecdsa_config.IOTEX_MPI_MAX_SIZE rsa_ecdsa_config.IOTEX_ECDSA_MAX_LEN :=
  ⟨by decide,
   (signature_max_size_eq_max_compiled_in rsa_ecdsa_config).2 (Or.inl rfl) rfl rfl⟩

/-- C5: for every build configuration, `IOTEX_PK_SIGNATURE_MAX_SIZE` is at
least the bound of each compiled-in mechanism (`IOTEX_MPI_MAX_SIZE` when RSA
or RSA-ALT is enabled, `IOTEX_ECDSA_MAX_LEN` when ECDSA is enabled,
`PSA_SIGNATURE_MAX_SIZE` and `PSA_VENDOR_ECDSA_SIGNATURE_MAX_SIZE + 11` when
PSA crypto is enabled), and it equals one of those bounds or 0; hence a
signature whose length `n` is within the bound of a compiled-in mechanism
fits a buffer of `IOTEX_PK_SIGNATURE_MAX_SIZE` bytes. -/
theorem signature_max_size_is_max (c : pk_build_config) :
    ((c.IOTEX_RSA_C = true ∨ c.IOTEX_PK_RSA_ALT_SUPPORT = true) →
      c.IOTEX_MPI_MAX_SIZE ≤ IOTEX_PK_SIGNATURE_MAX_SIZE c) ∧
    (c.IOTEX_ECDSA_C = true → c.IOTEX_ECDSA_MAX_LEN ≤ IOTEX_PK_SIGNATURE_MAX_SIZE c) ∧
    (c.IOTEX_USE_PSA_CRYPTO = true →
      c.PSA_SIGNATURE_MAX_SIZE ≤ IOTEX_PK_SIGNATURE_MAX_SIZE c ∧
      c.PSA_VENDOR_ECDSA_SIGNATURE_MAX_SIZE + 11 ≤ IOTEX_PK_SIGNATURE_MAX_SIZE c) ∧
    (IOTEX_PK_SIGNATURE_MAX_SIZE c = 0 ∨
      ((c.IOTEX_RSA_C = true ∨ c.IOTEX_PK_RSA_ALT_SUPPORT = true) ∧
        IOTEX_PK_SIGNATURE_MAX_SIZE c = c.IOTEX_MPI_MAX_SIZE) ∨
      (c.IOTEX_ECDSA_C = true ∧ IOTEX_PK_SIGNATURE_MAX_SIZE c = c.IOTEX_ECDSA_MAX_LEN) ∨
      (c.IOTEX_USE_PSA_CRYPTO = true ∧
        IOTEX_PK_SIGNATURE_MAX_SIZE c = c.PSA_SIGNATURE_MAX_SIZE) ∨
      (c.IOTEX_USE_PSA_CRYPTO = true ∧
        IOTEX_PK_SIGNATURE_MAX_SIZE c = c.PSA_VENDOR_ECDSA_SIGNATURE_MAX_SIZE + 11)) ∧
    (∀ n : Nat,
      ((c.IOTEX_RSA_C = true ∨ c.IOTEX_PK_RSA_ALT_SUPPORT = true) ∧ n ≤ c.IOTEX_MPI_MAX_SIZE) ∨
      (c.IOTEX_ECDSA_C = true ∧ n ≤ c.IOTEX_ECDSA_MAX_LEN) ∨
      (c.IOTEX_USE_PSA_CRYPTO = true ∧ n ≤ c.PSA_SIGNATURE_MAX_SIZE) ∨
      (c.IOTEX_USE_PSA_CRYPTO = true ∧ n ≤ c.PSA_VENDOR_ECDSA_SIGNATURE_MAX_SIZE + 11) →
      n ≤ IOTEX_PK_SIGNATURE_MAX_SIZE c) := by
  rw [signature_max_size_formula c]
  refine ⟨fun h => ?_, fun h => ?_, fun h => ?_, ?_, fun n hn => ?_⟩
  · rw [if_pos h]; omega
  · rw [if_pos h]; omega
  · rw [if_pos h]; omega
  · split_ifs with h1 h2 h3 h3 h2 h3 h3 <;>
      simp only [h1, h2, h3, true_and, false_and, false_or, or_false, not_false_eq_true] <;>
      omega
  · rcases hn with ⟨h, hn⟩ | ⟨h, hn⟩ | ⟨h, hn⟩ | ⟨h, hn⟩ <;> rw [if_pos h] <;> omega

/-- C5 at a build with RSA and ECDSA and without PSA crypto: both bounds,
1024 and 141, are within the macro, which is the RSA bound. -/
theorem signature_max_size_is_max_witness :
    rsa_ecdsa_config.IOTEX_MPI_MAX_SIZE ≤ IOTEX_PK_SIGNATURE_MAX_SIZE rsa_ecdsa_config ∧
    rsa_ecdsa_config.IOTEX_ECDSA_MAX_LEN ≤ IOTEX_PK_SIGNATURE_MAX_SIZE rsa_ecdsa_config ∧
    IOTEX_PK_SIGNATURE_MAX_SIZE rsa_ecdsa_config = 1024 :=
  ⟨(signature_max_size_is_max rsa_ecdsa_config).1 (Or.inl rfl),
   (signature_max_size_is_max rsa_ecdsa_config).2.1 rfl, by decide⟩

/-! ## C6: the error codes -/

/-- C6: the fifteen PK error codes are pairwise distinct and all negative,
so each differs from success (0) and from every other; in particular
`IOTEX_ERR_PK_SIG_LEN_MISMATCH` differs from `IOTEX_ERR_PK_BAD_INPUT_DATA`. -/
theorem pk_error_codes_distinct_negative :
    pk_error_codes.length = 15 ∧
    pk_error_codes.Nodup ∧
    (∀ e ∈ pk_error_codes, e < 0) ∧
    (∀ e ∈ pk_error_codes, e ≠ 0) ∧
    IOTEX_ERR_PK_SIG_LEN_MISMATCH ≠ IOTEX_ERR_PK_BAD_INPUT_DATA := by
  decide

/-! ## C7: the error value of `iotex_pk_get_len` -/

/-- C7: for every width `w` of `size_t` and every key context on which
`iotex_pk_get_bitlen` returns 0, `iotex_pk_get_len` returns 0. -/
theorem get_len_zero_of_bitlen_zero (w : Nat) (ctx : iotex_pk_context)
    (h : iotex_pk_get_bitlen w ctx = 0) : iotex_pk_get_len w ctx = 0 := by
  unfold iotex_pk_get_len
  rw [h]
  exact Nat.div_eq_of_lt (lt_of_le_of_lt (Nat.mod_le _ _) (by norm_num))

/-- C7 at an empty context and at a set-up context whose backend reports
0 bits, on a 32-bit target. -/
theorem get_len_zero_of_bitlen_zero_witness :
    (iotex_pk_get_bitlen 32 empty_ctx = 0 ∧ iotex_pk_get_len 32 empty_ctx = 0) ∧
    (iotex_pk_get_bitlen 32 (sample_ctx IOTEX_PK_ECKEY 0 16) = 0 ∧
      iotex_pk_get_len 32 (sample_ctx IOTEX_PK_ECKEY 0 16) = 0) :=
  ⟨⟨by decide, get_len_zero_of_bitlen_zero 32 empty_ctx (by decide)⟩,
   ⟨by decide, get_len_zero_of_bitlen_zero 32 (sample_ctx IOTEX_PK_ECKEY 0 16) (by decide)⟩⟩

/-! ## C8, C9, C10: life cycle of a key context -/

/-- C8: whatever the descriptor (so for every supported key type), a context
on which `iotex_pk_setup` succeeded and `iotex_pk_free` was then called
reports `IOTEX_PK_NONE` from `iotex_pk_get_type`; and `iotex_pk_free`
applied to `NULL` or to an already-empty context leaves the context and the
backend memory unchanged. For every key type a set-up that succeeds
exists. -/
theorem setup_free_get_type_none :
    (∀ (ctx ctx1 : iotex_pk_context) (info : iotex_pk_info_t) (heap heap1 : Heap),
      iotex_pk_setup ctx (some info) heap = (0, ctx1, heap1) →
      iotex_pk_get_type ctx1 = info.type ∧
      ∃ ctx2, (iotex_pk_free (some ctx1) heap1).1 = some ctx2 ∧
        iotex_pk_get_type ctx2 = IOTEX_PK_NONE) ∧
    (∀ (t : iotex_pk_type_t),
      (iotex_pk_setup empty_ctx (some (sample_info t 256 16)) []).1 = 0) ∧
    (∀ heap : Heap, iotex_pk_free none heap = (none, heap)) ∧
    (∀ (ctx : iotex_pk_context) (heap : Heap), ctx.pk_info = none →
      iotex_pk_free (some ctx) heap = (some ctx, heap)) := by
  refine ⟨?_, ?_, ?_, ?_⟩
  · intro ctx ctx1 info heap heap1 h
    unfold iotex_pk_setup at h
    cases hc : ctx.pk_info with
    | some i0 =>
      rw [hc] at h
      simp [IOTEX_ERR_PK_BAD_INPUT_DATA] at h
    | none =>
      rw [hc] at h
      by_cases ha : (info.ctx_alloc_func heap).1 = NULL
      · simp [ha, IOTEX_ERR_PK_ALLOC_FAILED] at h
      · simp only [ha, if_false, Prod.mk.injEq, true_and] at h
        obtain ⟨h1, _⟩ := h
        subst h1
        exact ⟨rfl, _, rfl, rfl⟩
  · intro t
    rfl
  · intro heap
    rfl
  · intro ctx heap h
    unfold iotex_pk_free
    simp only [h]

/-- C8 at an ECDSA descriptor: set-up of an empty context succeeds, the
context then has type ECDSA, and after `iotex_pk_free` its type is NONE. -/
theorem setup_free_get_type_none_witness :
    iotex_pk_setup empty_ctx (some (sample_info IOTEX_PK_ECDSA 256 16)) [] =
      (0, sample_ctx IOTEX_PK_ECDSA 256 16, [16]) ∧
    iotex_pk_get_type (sample_ctx IOTEX_PK_ECDSA 256 16) = IOTEX_PK_ECDSA ∧
    ∃ ctx2, (iotex_pk_free (some (sample_ctx IOTEX_PK_ECDSA 256 16)) [16]).1 = some ctx2 ∧
      iotex_pk_get_type ctx2 = IOTEX_PK_NONE :=
  ⟨rfl, setup_free_get_type_none.1 empty_ctx (sample_ctx IOTEX_PK_ECDSA 256 16)
    (sample_info IOTEX_PK_ECDSA 256 16) [] [16] rfl⟩

/-- C9: for every key type `t`, `iotex_pk_can_do` returns 0 for a context
that has been initialized but not set up, and for one that has been cleared
with `iotex_pk_free`; it returns 1 only if the context is set up and its
descriptor's predicate accepts `t`; and it changes neither the context nor
the backend memory. -/
theorem can_do_empty_and_readonly :
    (∀ (ctx : iotex_pk_context) (t : iotex_pk_type_t) (heap : Heap),
      (iotex_pk_can_do (iotex_pk_init ctx) t heap).1 = 0) ∧
    (∀ (ctx : iotex_pk_context) (t : iotex_pk_type_t) (heap heap1 : Heap),
      ∃ ctx1, (iotex_pk_free (some ctx) heap).1 = some ctx1 ∧
        (iotex_pk_can_do ctx1 t heap1).1 = 0) ∧
    (∀ (ctx : iotex_pk_context) (t : iotex_pk_type_t) (heap : Heap),
      (iotex_pk_can_do ctx t heap).1 = 1 →
      ∃ info, ctx.pk_info = some info ∧ info.can_do t = true) ∧
    (∀ (ctx : iotex_pk_context) (t : iotex_pk_type_t) (heap : Heap),
      (iotex_pk_can_do ctx t heap).2 = (ctx, heap)) := by
  refine ⟨?_, ?_, ?_, ?_⟩
  · intro ctx t heap
    rfl
  · intro ctx t heap heap1
    cases hc : ctx.pk_info with
    | none => exact ⟨ctx, by simp [iotex_pk_free, hc], by simp [iotex_pk_can_do, hc]⟩
    | some info =>
      exact ⟨{ pk_info := none, pk_ctx := NULL }, by simp [iotex_pk_free, hc], rfl⟩
  · intro ctx t heap h
    unfold iotex_pk_can_do at h
    cases hc : ctx.pk_info with
    | none => rw [hc] at h; simp at h
    | some info =>
      rw [hc] at h
      refine ⟨info, rfl, ?_⟩
      by_contra hn
      simp [hn] at h
  · intro ctx t heap
    unfold iotex_pk_can_do
    cases ctx.pk_info <;> rfl

/-- C9 at an RSA context: `iotex_pk_can_do` answers 1 for RSA, which the
descriptor accepts, 0 for ECDSA, 0 once the context is freed, and the
accepted answer comes from a set-up context. -/
theorem can_do_empty_and_readonly_witness :
    (iotex_pk_can_do (sample_ctx IOTEX_PK_RSA 2048 16) IOTEX_PK_RSA [16]).1 = 1 ∧
    (iotex_pk_can_do (sample_ctx IOTEX_PK_RSA 2048 16) IOTEX_PK_ECDSA [16]).1 = 0 ∧
    (iotex_pk_can_do empty_ctx IOTEX_PK_RSA [16]).1 = 0 ∧
    (∃ info, (sample_ctx IOTEX_PK_RSA 2048 16).pk_info = some info ∧
      info.can_do IOTEX_PK_RSA = true) :=
  ⟨by decide, by decide, by decide,
   can_do_empty_and_readonly.2.2.1 (sample_ctx IOTEX_PK_RSA 2048 16) IOTEX_PK_RSA [16]
     (by decide)⟩

/-- C10: `iotex_pk_setup ctx info` fails with `IOTEX_ERR_PK_BAD_INPUT_DATA`
whenever `ctx` is already set up (it has a descriptor; in particular whenever
its type is not NONE) or `info` is `NULL`; it fails with
`IOTEX_ERR_PK_ALLOC_FAILED` when the context is empty and the descriptor's
allocator fails; and in every failing case the context is left unchanged, so
an empty context is still NONE. -/
theorem setup_failures :
    (∀ (ctx : iotex_pk_context) (info : Option iotex_pk_info_t) (heap : Heap),
      ctx.pk_info ≠ none ∨ iotex_pk_get_type ctx ≠ IOTEX_PK_NONE ∨ info = none →
      (iotex_pk_setup ctx info heap).1 = IOTEX_ERR_PK_BAD_INPUT_DATA) ∧
    (∀ (ctx : iotex_pk_context) (info : iotex_pk_info_t) (heap : Heap),
      ctx.pk_info = none → (info.ctx_alloc_func heap).1 = NULL →
      (iotex_pk_setup ctx (some info) heap).1 = IOTEX_ERR_PK_ALLOC_FAILED) ∧
    (∀ (ctx : iotex_pk_context) (info : Option iotex_pk_info_t) (heap : Heap),
      (iotex_pk_setup ctx info heap).1 ≠ 0 →
      (iotex_pk_setup ctx info heap).2.1 = ctx ∧
      iotex_pk_get_type (iotex_pk_setup ctx info heap).2.1 = iotex_pk_get_type ctx) := by
  refine ⟨?_, ?_, ?_⟩
  · intro ctx info heap h
    have hset : ctx.pk_info ≠ none ∨ info = none := by
      rcases h with h | h | h
      · exact Or.inl h
      · left
        intro hn
        apply h
        simp [iotex_pk_get_type, hn]
      · exact Or.inr h
    unfold iotex_pk_setup
    cases info with
    | none => rfl
    | some i =>
      cases hc : ctx.pk_info with
      | none =>
        rcases hset with h1 | h1
        · exact absurd hc h1
        · exact absurd h1 (by simp)
      | some i0 => rfl
  · intro ctx info heap hc ha
    unfold iotex_pk_setup
    simp only [hc, ha, if_true]
  · intro ctx info heap h
    unfold iotex_pk_setup at h ⊢
    cases info with
    | none => exact ⟨rfl, rfl⟩
    | some i =>
      cases hc : ctx.pk_info with
      | some i0 => exact ⟨rfl, rfl⟩
      | none =>
        rw [hc] at h
        by_cases ha : (i.ctx_alloc_func heap).1 = NULL
        · simp only [hc, ha, if_true]
          exact ⟨trivial, trivial⟩
        · simp [ha] at h

/-- C10 at concrete inputs: set-up of an RSA context that is already set up,
set-up with a `NULL` descriptor, and set-up whose allocator fails; each
leaves the context as it was. -/
theorem setup_failures_witness :
    ((iotex_pk_setup (sample_ctx IOTEX_PK_RSA 2048 16)
        (some (sample_info IOTEX_PK_ECDSA 256 32)) [16]).1 = IOTEX_ERR_PK_BAD_INPUT_DATA) ∧
    ((iotex_pk_setup empty_ctx none []).1 = IOTEX_ERR_PK_BAD_INPUT_DATA) ∧
    ((iotex_pk_setup empty_ctx (some (sample_info IOTEX_PK_ECDSA 256 0)) []).1 =
        IOTEX_ERR_PK_ALLOC_FAILED) ∧
    ((iotex_pk_setup empty_ctx (some (sample_info IOTEX_PK_ECDSA 256 0)) []).2.1 = empty_ctx ∧
      iotex_pk_get_type (iotex_pk_setup empty_ctx (some (sample_info IOTEX_PK_ECDSA 256 0)) []).2.1
        = iotex_pk_get_type empty_ctx) :=
  ⟨setup_failures.1 (sample_ctx IOTEX_PK_RSA 2048 16)
      (some (sample_info IOTEX_PK_ECDSA 256 32)) [16] (Or.inr (Or.inl (by decide))),
   setup_failures.1 empty_ctx none [] (Or.inr (Or.inr rfl)),
   setup_failures.2.1 empty_ctx (sample_info IOTEX_PK_ECDSA 256 0) [] rfl rfl,
   setup_failures.2.2 empty_ctx (some (sample_info IOTEX_PK_ECDSA 256 0)) [] (by decide)⟩

/-! ## C15: no signature mechanism compiled in -/

/-- C15: in a build configuration where none of RSA, RSA-ALT, ECDSA and PSA
crypto is compiled in, `IOTEX_PK_SIGNATURE_MAX_SIZE` is 0, whatever the size
constants are. -/
theorem signature_max_size_zero_of_no_backend (c : pk_build_config)
    (hrsa : c.IOTEX_RSA_C = false) (halt : c.IOTEX_PK_RSA_ALT_SUPPORT = false)
    (hecdsa : c.IOTEX_ECDSA_C = false) (hpsa : c.IOTEX_USE_PSA_CRYPTO = false) :
    IOTEX_PK_SIGNATURE_MAX_SIZE c = 0 := by
  simp [IOTEX_PK_SIGNATURE_MAX_SIZE, sig_max_rsa_block, sig_max_ecdsa_block, hrsa, halt,
    hecdsa, hpsa]

/-- C15 at the ECDH-only build, whose size constants are not 0. -/
theorem signature_max_size_zero_of_no_backend_witness :
    ecdh_only_config.IOTEX_MPI_MAX_SIZE = 1024 ∧
    IOTEX_PK_SIGNATURE_MAX_SIZE ecdh_only_config = 0 :=
  ⟨rfl, signature_max_size_zero_of_no_backend ecdh_only_config rfl rfl rfl rfl⟩

/-! ## C16: the key-type tag -/

/-- C16: `iotex_pk_type_t` has exactly eight members, NONE, RSA, ECKEY,
ECKEY_DH, ECDSA, RSA_ALT, RSASSA_PSS and OPAQUE; their values are 0 through 7
in that order, pairwise distinct, and NONE is the zero value. -/
theorem pk_type_eight_members :
    iotex_pk_type_members.length = 8 ∧
    iotex_pk_type_members.Nodup ∧
    (∀ t : iotex_pk_type_t, t ∈ iotex_pk_type_members) ∧
    iotex_pk_type_members.map iotex_pk_type_value = [0, 1, 2, 3, 4, 5, 6, 7] ∧
    (∀ a b : iotex_pk_type_t, iotex_pk_type_value a = iotex_pk_type_value b → a = b) ∧
    iotex_pk_type_value IOTEX_PK_NONE = 0 ∧
    (∀ t : iotex_pk_type_t, iotex_pk_type_value t = 0 → t = IOTEX_PK_NONE) := by
  refine ⟨rfl, by decide, ?_, rfl, ?_, rfl, ?_⟩
  · intro t
    cases t <;> decide
  · intro a b
    cases a <;> cases b <;> decide
  · intro t
    cases t <;> decide

/-! ## C17, C19: `iotex_pk_get_len` in `size_t` arithmetic -/

/-- C17: for every width `w` of `size_t` (at least 3 bits) and every key
context with bit length `b`, `iotex_pk_get_len` is `(b + 7) / 8` computed
modulo `2 ^ w`; it equals the ceiling of `b / 8` if and only if
`b ≤ 2 ^ w - 8`; for each larger `b` (there are seven, all below `2 ^ w`)
the addition wraps and it returns 0; and each of those seven bit lengths is
the bit length of some context. -/
theorem get_len_wraps_above_bound (w : Nat) (hw : 3 ≤ w) (ctx : iotex_pk_context) :
    iotex_pk_get_len w ctx = ((iotex_pk_get_bitlen w ctx + 7) % 2 ^ w) / 8 ∧
    iotex_pk_get_bitlen w ctx < 2 ^ w ∧
    (iotex_pk_get_len w ctx = ⌈((iotex_pk_get_bitlen w ctx : ℕ) : ℚ) / 8⌉₊ ↔
      iotex_pk_get_bitlen w ctx ≤ 2 ^ w - 8) ∧
    (2 ^ w - 8 < iotex_pk_get_bitlen w ctx → iotex_pk_get_len w ctx = 0) ∧
    (∀ k : Nat, k < 7 →
      iotex_pk_get_bitlen w (sample_ctx IOTEX_PK_RSA_ALT (2 ^ w - 7 + k) 16) = 2 ^ w - 7 + k ∧
      iotex_pk_get_len w (sample_ctx IOTEX_PK_RSA_ALT (2 ^ w - 7 + k) 16) = 0) := by
  have h8 := eight_le_two_pow w hw
  have hlt := get_bitlen_lt w ctx
  have hlarge : ∀ c : iotex_pk_context, 2 ^ w - 8 < iotex_pk_get_bitlen w c →
      iotex_pk_get_len w c = 0 :=
    fun c hc => wrap_add_seven_div_large w _ h8 hc (get_bitlen_lt w c)
  refine ⟨rfl, hlt, ⟨fun h => ?_, fun h => ?_⟩, hlarge ctx, fun k hk => ?_⟩
  · by_contra hn
    rw [hlarge ctx (by omega), nat_ceil_div8] at h
    omega
  · rw [nat_ceil_div8]
    exact wrap_add_seven_div w _ h
  · have hb : iotex_pk_get_bitlen w (sample_ctx IOTEX_PK_RSA_ALT (2 ^ w - 7 + k) 16)
        = 2 ^ w - 7 + k := by
      show (2 ^ w - 7 + k) % 2 ^ w = 2 ^ w - 7 + k
      exact Nat.mod_eq_of_lt (by omega)
    exact ⟨hb, hlarge _ (by rw [hb]; omega)⟩

/-- C17 on a 32-bit target: 4294967288 bits give 536870911 bytes, the
ceiling, and 4294967289 bits give 0. -/
theorem get_len_wraps_above_bound_witness :
    iotex_pk_get_len 32 (sample_ctx IOTEX_PK_RSA_ALT 4294967288 16) = 536870911 ∧
    iotex_pk_get_len 32 (sample_ctx IOTEX_PK_RSA_ALT 4294967289 16) = 0 ∧
    (iotex_pk_get_len 32 (sample_ctx IOTEX_PK_RSA_ALT 4294967289 16) =
        ⌈((iotex_pk_get_bitlen 32 (sample_ctx IOTEX_PK_RSA_ALT 4294967289 16) : ℕ) : ℚ) / 8⌉₊ ↔
      iotex_pk_get_bitlen 32 (sample_ctx IOTEX_PK_RSA_ALT 4294967289 16) ≤ 2 ^ 32 - 8) :=
  ⟨by decide, by decide,
   (get_len_wraps_above_bound 32 (by decide)
      (sample_ctx IOTEX_PK_RSA_ALT 4294967289 16)).2.2.1⟩

/-- C19: for every width `w` of `size_t` and all key contexts whose bit
lengths satisfy `b1 ≤ b2 ≤ 2 ^ w - 8`, the byte length `iotex_pk_get_len`
derives from `b1` is at most the one it derives from `b2`, and each derived
byte length is 0 if and only if the bit length is 0. -/
theorem get_len_monotone_below_bound (w : Nat) (ctx1 ctx2 : iotex_pk_context)
    (h12 : iotex_pk_get_bitlen w ctx1 ≤ iotex_pk_get_bitlen w ctx2)
    (h2 : iotex_pk_get_bitlen w ctx2 ≤ 2 ^ w - 8) :
    iotex_pk_get_len w ctx1 ≤ iotex_pk_get_len w ctx2 ∧
    (iotex_pk_get_len w ctx1 = 0 ↔ iotex_pk_get_bitlen w ctx1 = 0) ∧
    (iotex_pk_get_len w ctx2 = 0 ↔ iotex_pk_get_bitlen w ctx2 = 0) := by
  have e1 : iotex_pk_get_len w ctx1 = (iotex_pk_get_bitlen w ctx1 + 7) / 8 :=
    wrap_add_seven_div w _ (le_trans h12 h2)
  have e2 : iotex_pk_get_len w ctx2 = (iotex_pk_get_bitlen w ctx2 + 7) / 8 :=
    wrap_add_seven_div w _ h2
  rw [e1, e2]
  omega

/-- C19 on a 32-bit target: a 1-bit key has length 1, not the error value
0, and a 255-bit key is not longer than a 2048-bit key. -/
theorem get_len_monotone_below_bound_witness :
    (iotex_pk_get_len 32 (sample_ctx IOTEX_PK_ECKEY 1 16) = 1) ∧
    (iotex_pk_get_len 32 (sample_ctx IOTEX_PK_ECKEY 255 16) ≤
      iotex_pk_get_len 32 (sample_ctx IOTEX_PK_RSA 2048 32)) ∧
    (iotex_pk_get_len 32 (sample_ctx IOTEX_PK_ECKEY 255 16) = 0 ↔
      iotex_pk_get_bitlen 32 (sample_ctx IOTEX_PK_ECKEY 255 16) = 0) :=
  ⟨by decide,
   (get_len_monotone_below_bound 32 (sample_ctx IOTEX_PK_ECKEY 255 16)
      (sample_ctx IOTEX_PK_RSA 2048 32) (by decide) (by decide)).1,
   (get_len_monotone_below_bound 32 (sample_ctx IOTEX_PK_ECKEY 255 16)
      (sample_ctx IOTEX_PK_RSA 2048 32) (by decide) (by decide)).2.1⟩

/-! ## C18: the two accessors together -/

/-- C18: for every key context, `iotex_pk_rsa` and `iotex_pk_ec` never both
return a non-NULL reference; and for a context whose type is NONE, RSA_ALT,
RSASSA_PSS or OPAQUE both return `NULL`, whatever `pk_ctx` holds. -/
theorem rsa_ec_accessors_exclusive (pk : iotex_pk_context) :
    (iotex_pk_rsa pk = NULL ∨ iotex_pk_ec pk = NULL) ∧
    (iotex_pk_get_type pk = IOTEX_PK_NONE ∨ iotex_pk_get_type pk = IOTEX_PK_RSA_ALT ∨
      iotex_pk_get_type pk = IOTEX_PK_RSASSA_PSS ∨ iotex_pk_get_type pk = IOTEX_PK_OPAQUE →
      iotex_pk_rsa pk = NULL ∧ iotex_pk_ec pk = NULL) := by
  unfold iotex_pk_rsa iotex_pk_ec
  cases iotex_pk_get_type pk <;> simp

/-- C18 at an RSA-ALT context and at an empty context that both hold a
non-null `pk_ctx`, and at an RSA context, where only `iotex_pk_ec` is
`NULL`. -/
theorem rsa_ec_accessors_exclusive_witness :
    (sample_ctx IOTEX_PK_RSA_ALT 2048 16).pk_ctx = 16 ∧
    (iotex_pk_rsa (sample_ctx IOTEX_PK_RSA_ALT 2048 16) = NULL ∧
      iotex_pk_ec (sample_ctx IOTEX_PK_RSA_ALT 2048 16) = NULL) ∧
    (iotex_pk_rsa { pk_info := none, pk_ctx := 16 } = NULL ∧
      iotex_pk_ec { pk_info := none, pk_ctx := 16 } = NULL) ∧
    iotex_pk_rsa (sample_ctx IOTEX_PK_RSA 2048 16) = 16 ∧
    iotex_pk_ec (sample_ctx IOTEX_PK_RSA 2048 16) = NULL :=
  ⟨rfl,
   (rsa_ec_accessors_exclusive (sample_ctx IOTEX_PK_RSA_ALT 2048 16)).2 (Or.inr (Or.inl rfl)),
   (rsa_ec_accessors_exclusive { pk_info := none, pk_ctx := 16 }).2 (Or.inl rfl),
   rfl, rfl⟩

/-! ## C20: PK error codes in a combined status -/

/-- C20: every PK error code is a negative multiple of 0x80 between -0x3F80
and -0x3880 inclusive; hence for any two PK error codes `e1`, `e2` and any
two low-level offsets `l1`, `l2` in the range -0x7F..0, `e1 + l1 = e2 + l2`
implies `e1 = e2` and `l1 = l2`. -/
theorem pk_error_code_recoverable :
    (∀ e ∈ pk_error_codes, e < 0 ∧ (0x80 : Int) ∣ e ∧ -0x3F80 ≤ e ∧ e ≤ -0x3880) ∧
    (∀ e1 ∈ pk_error_codes, ∀ e2 ∈ pk_error_codes, ∀ l1 l2 : Int,
      -0x7F ≤ l1 → l1 ≤ 0 → -0x7F ≤ l2 → l2 ≤ 0 →
      e1 + l1 = e2 + l2 → e1 = e2 ∧ l1 = l2) := by
  have h : ∀ e ∈ pk_error_codes, e < 0 ∧ (0x80 : Int) ∣ e ∧ -0x3F80 ≤ e ∧ e ≤ -0x3880 := by
    decide
  refine ⟨h, ?_⟩
  intro e1 he1 e2 he2 l1 l2 a1 b1 a2 b2 heq
  obtain ⟨_, d1, _, _⟩ := h e1 he1
  obtain ⟨_, d2, _, _⟩ := h e2 he2
  omega

/-- C20 at the status `IOTEX_ERR_PK_KEY_INVALID_FORMAT - 0x62`: the only PK
error code and offset that combine to it are those two. -/
theorem pk_error_code_recoverable_witness :
    IOTEX_ERR_PK_KEY_INVALID_FORMAT + (-0x62) = -0x3D62 ∧
    ∀ e2 ∈ pk_error_codes, ∀ l2 : Int, -0x7F ≤ l2 → l2 ≤ 0 →
      IOTEX_ERR_PK_KEY_INVALID_FORMAT + (-0x62) = e2 + l2 →
      IOTEX_ERR_PK_KEY_INVALID_FORMAT = e2 ∧ -0x62 = l2 :=
  ⟨by decide, fun e2 he2 l2 a2 b2 heq =>
    pk_error_code_recoverable.2 IOTEX_ERR_PK_KEY_INVALID_FORMAT (by decide) e2 he2 (-0x62) l2
      (by decide) (by decide) a2 b2 heq⟩

/-! ## C11: restartable verification -/

/-- C11: for every backend, key context, hash and signature,
(1) under an operation budget of at least one operation, calling
`iotex_pk_verify_restartable` with a fresh restart context and re-invoking
it until it no longer returns "in progress" ends, after a bounded number of
calls, with the result of `iotex_pk_verify` on the same inputs;
(2) with a `NULL` restart context `iotex_pk_verify_restartable` returns in
one call exactly what `iotex_pk_verify` returns;
(3) so it does with an RSA key, whatever the restart context. -/
theorem verify_restartable_refines_verify {σ : Type} (be : pk_verify_backend σ)
    (max_ops : Nat) (ctx : iotex_pk_context) (md_alg : iotex_md_type_t) (hash sig : List Nat) :
    (0 < max_ops → ∃ n, ∀ calls, n ≤ calls →
      pk_verify_resume_loop be max_ops ctx md_alg hash sig calls (some pk_restart_state.fresh)
        = some (iotex_pk_verify be ctx md_alg hash sig)) ∧
    (iotex_pk_verify_restartable be max_ops ctx md_alg hash sig none
      = (pk_restartable_status.returned (iotex_pk_verify be ctx md_alg hash sig), none)) ∧
    (iotex_pk_get_type ctx = IOTEX_PK_RSA → ∀ rs_ctx,
      iotex_pk_verify_restartable be max_ops ctx md_alg hash sig rs_ctx
        = (pk_restartable_status.returned (iotex_pk_verify be ctx md_alg hash sig), rs_ctx)) := by
  refine ⟨fun hpos => ?_, rfl, fun hrsa rs_ctx => ?_⟩
  · refine ⟨be.ec.ops_left (be.ec.start ctx.pk_ctx md_alg hash sig) + 1, fun calls hc => ?_⟩
    obtain ⟨k, rfl⟩ : ∃ k, calls = k + 1 := ⟨calls - 1, by omega⟩
    cases hec : (pk_is_ec_type (iotex_pk_get_type ctx) && pk_hash_len_ok md_alg hash) with
    | false =>
      simp only [pk_verify_resume_loop, iotex_pk_verify_restartable, hec, Bool.false_eq_true,
        if_false]
    | true =>
      have hv := verify_of_ec be ctx md_alg hash sig hec
      cases hr : ec_run be.ec max_ops (be.ec.start ctx.pk_ctx md_alg hash sig) with
      | inl s1 =>
        obtain ⟨e, l⟩ := ec_run_pause be.ec max_ops _ s1 hr
        simp only [pk_verify_resume_loop, iotex_pk_verify_restartable, hec, if_true,
          pk_restart_resume, hr]
        rw [resume_loop_in_progress be max_ops hpos ctx md_alg hash sig hec k s1 (by omega),
          e, hv]
      | inr v =>
        simp only [pk_verify_resume_loop, iotex_pk_verify_restartable, hec, if_true,
          pk_restart_resume, hr]
        rw [hv, ec_complete_of_run be.ec max_ops _ v hr]
  · cases rs_ctx with
    | none => rfl
    | some st =>
      simp only [iotex_pk_verify_restartable, hrsa, pk_is_ec_type, Bool.false_and,
        Bool.false_eq_true, if_false]

/-- C11 at an ECDSA context whose verification takes 12 operations, under a
budget of 5: the first call returns "in progress", two calls are not enough,
the third call ends with 0, which is what `iotex_pk_verify` returns; with a
fifth byte after the signature the fourth call ends with SigLenMismatch. -/
theorem verify_restartable_refines_verify_witness :
    (iotex_pk_verify_restartable sample_verify_backend 5 (sample_ctx IOTEX_PK_ECDSA 256 16)
        (some 4) [1, 2, 3, 4] [1, 2, 3, 4] (some pk_restart_state.fresh)).1
      = pk_restartable_status.in_progress ∧
    pk_verify_resume_loop sample_verify_backend 5 (sample_ctx IOTEX_PK_ECDSA 256 16)
        (some 4) [1, 2, 3, 4] [1, 2, 3, 4] 2 (some pk_restart_state.fresh) = none ∧
    pk_verify_resume_loop sample_verify_backend 5 (sample_ctx IOTEX_PK_ECDSA 256 16)
        (some 4) [1, 2, 3, 4] [1, 2, 3, 4] 3 (some pk_restart_state.fresh) = some 0 ∧
    iotex_pk_verify sample_verify_backend (sample_ctx IOTEX_PK_ECDSA 256 16)
        (some 4) [1, 2, 3, 4] [1, 2, 3, 4] = 0 ∧
    pk_verify_resume_loop sample_verify_backend 5 (sample_ctx IOTEX_PK_ECDSA 256 16)
        (some 4) [1, 2, 3, 4] [1, 2, 3, 4, 9] 4 (some pk_restart_state.fresh)
      = some IOTEX_ERR_PK_SIG_LEN_MISMATCH ∧
    (∃ n, ∀ calls, n ≤ calls →
      pk_verify_resume_loop sample_verify_backend 5 (sample_ctx IOTEX_PK_ECDSA 256 16)
          (some 4) [1, 2, 3, 4] [1, 2, 3, 4] calls (some pk_restart_state.fresh)
        = some (iotex_pk_verify sample_verify_backend (sample_ctx IOTEX_PK_ECDSA 256 16)
            (some 4) [1, 2, 3, 4] [1, 2, 3, 4])) :=
  ⟨by decide, by decide, by decide, by decide, by decide,
   (verify_restartable_refines_verify sample_verify_backend 5
      (sample_ctx IOTEX_PK_ECDSA 256 16) (some 4) [1, 2, 3, 4] [1, 2, 3, 4]).1 (by decide)⟩

/-! ## C12: trailing data after a valid signature -/

/-- C12: for every backend, context, hash and signature buffer,
`iotex_pk_verify` returns SigLenMismatch when the buffer holds a valid
signature (the context is set up, the hash fits the hash algorithm and the
backend finds a valid signature of `n` bytes) whose length `n` is less than
the length of the buffer; and it returns 0 only when the backend finds a
valid signature that leaves no byte of the buffer over. -/
theorem verify_trailing_data {σ : Type} (be : pk_verify_backend σ) (ctx : iotex_pk_context)
    (md_alg : iotex_md_type_t) (hash sig : List Nat) :
    (∀ n, ctx.pk_info ≠ none → pk_hash_len_ok md_alg hash = true →
      pk_verify_verdict be ctx md_alg hash sig = sig_verdict.valid n → n < sig.length →
      iotex_pk_verify be ctx md_alg hash sig = IOTEX_ERR_PK_SIG_LEN_MISMATCH) ∧
    (iotex_pk_verify be ctx md_alg hash sig = 0 →
      ctx.pk_info ≠ none ∧ pk_hash_len_ok md_alg hash = true ∧
      ∃ n, pk_verify_verdict be ctx md_alg hash sig = sig_verdict.valid n ∧ sig.length ≤ n) := by
  refine ⟨fun n hset hh hv hn => ?_, fun h0 => ?_⟩
  · cases hc : ctx.pk_info with
    | none => exact absurd hc hset
    | some info => simp only [iotex_pk_verify, hc, hh, if_true, hv, sig_verdict_status, hn]
  · cases hc : ctx.pk_info with
    | none => simp [iotex_pk_verify, hc, IOTEX_ERR_PK_BAD_INPUT_DATA] at h0
    | some info =>
      cases hh : pk_hash_len_ok md_alg hash with
      | false => simp [iotex_pk_verify, hc, hh, IOTEX_ERR_PK_BAD_INPUT_DATA] at h0
      | true =>
        simp only [iotex_pk_verify, hc, hh, if_true] at h0
        refine ⟨by simp, rfl, ?_⟩
        cases hv : pk_verify_verdict be ctx md_alg hash sig with
        | valid n =>
          rw [hv] at h0
          refine ⟨n, rfl, ?_⟩
          by_contra hlt
          simp [sig_verdict_status, not_le.mp hlt, IOTEX_ERR_PK_SIG_LEN_MISMATCH] at h0
        | invalid code =>
          rw [hv] at h0
          simp [sig_verdict_status] at h0

/-- C12 at an RSA context whose backend accepts a buffer that starts with
the hash: with one more byte in the buffer the result is SigLenMismatch, and
the exact signature gives 0. -/
theorem verify_trailing_data_witness :
    iotex_pk_verify sample_verify_backend (sample_ctx IOTEX_PK_RSA 2048 16) none
        [7, 7, 7] [7, 7, 7, 0] = IOTEX_ERR_PK_SIG_LEN_MISMATCH ∧
    iotex_pk_verify sample_verify_backend (sample_ctx IOTEX_PK_RSA 2048 16) none
        [7, 7, 7] [7, 7, 7] = 0 ∧
    (∃ n, pk_verify_verdict sample_verify_backend (sample_ctx IOTEX_PK_RSA 2048 16) none
        [7, 7, 7] [7, 7, 7] = sig_verdict.valid n ∧ [7, 7, 7].length ≤ n) :=
  ⟨(verify_trailing_data sample_verify_backend (sample_ctx IOTEX_PK_RSA 2048 16) none
      [7, 7, 7] [7, 7, 7, 0]).1 3 (by simp [sample_ctx]) (by decide) (by decide) (by decide),
   by decide,
   ((verify_trailing_data sample_verify_backend (sample_ctx IOTEX_PK_RSA 2048 16) none
      [7, 7, 7] [7, 7, 7]).2 (by decide)).2.2⟩

/-! ## C13: RSASSA-PSS verification on a key that is not RSA -/

/-- C13: `iotex_pk_verify_ext` called with type `IOTEX_PK_RSASSA_PSS` and
non-NULL options on a set-up context whose key is not an RSA key (its type,
as `iotex_pk_get_type` returns it, is not `IOTEX_PK_RSA`) returns
TypeMismatch, for every backend, descriptor predicate, hash algorithm, hash
and signature. -/
theorem verify_ext_pss_type_mismatch {σ : Type} (be : pk_verify_backend σ)
    (ctx : iotex_pk_context) (o : iotex_pk_rsassa_pss_options)
    (md_alg : iotex_md_type_t) (hash sig : List Nat)
    (hset : ctx.pk_info ≠ none) (hkey : iotex_pk_get_type ctx ≠ IOTEX_PK_RSA) :
    iotex_pk_verify_ext be IOTEX_PK_RSASSA_PSS (some o) ctx md_alg hash sig
      = IOTEX_ERR_PK_TYPE_MISMATCH := by
  cases hc : ctx.pk_info with
  | none => exact absurd hc hset
  | some info =>
    have ht : info.type ≠ IOTEX_PK_RSA := by
      simpa [iotex_pk_get_type, hc] using hkey
    simp [iotex_pk_verify_ext, hc, pk_key_can_perform, ht]

/-- C13 at an ECDSA context whose descriptor's predicate accepts every
scheme, and at an RSA-ALT context: both answer TypeMismatch; an RSA context
whose descriptor accepts RSASSA-PSS does not, it gets the backend's
answer. -/
theorem verify_ext_pss_type_mismatch_witness :
    iotex_pk_get_type sample_ecdsa_any_ctx = IOTEX_PK_ECDSA ∧
    iotex_pk_verify_ext sample_verify_backend IOTEX_PK_RSASSA_PSS
        (some { mgf1_hash_id := some 32, expected_salt_len := 32 })
        sample_ecdsa_any_ctx (some 4) [1, 2, 3, 4] [1, 2, 3, 4]
      = IOTEX_ERR_PK_TYPE_MISMATCH ∧
    iotex_pk_verify_ext sample_verify_backend IOTEX_PK_RSASSA_PSS
        (some { mgf1_hash_id := some 32, expected_salt_len := 32 })
        (sample_ctx IOTEX_PK_RSA_ALT 2048 16) (some 4) [1, 2, 3, 4] [1, 2, 3, 4]
      = IOTEX_ERR_PK_TYPE_MISMATCH ∧
    iotex_pk_verify_ext sample_verify_backend IOTEX_PK_RSASSA_PSS
        (some { mgf1_hash_id := some 32, expected_salt_len := 32 })
        sample_rsa_pss_ctx (some 4) [1, 2, 3, 4] [1, 2, 3, 4]
      = -0x4380 :=
  ⟨rfl,
   verify_ext_pss_type_mismatch sample_verify_backend sample_ecdsa_any_ctx
     { mgf1_hash_id := some 32, expected_salt_len := 32 } (some 4) [1, 2, 3, 4] [1, 2, 3, 4]
     (by simp [sample_ecdsa_any_ctx]) (by decide),
   verify_ext_pss_type_mismatch sample_verify_backend (sample_ctx IOTEX_PK_RSA_ALT 2048 16)
     { mgf1_hash_id := some 32, expected_salt_len := 32 } (some 4) [1, 2, 3, 4] [1, 2, 3, 4]
     (by simp [sample_ctx]) (by decide),
   by decide⟩

/-! ## C14: DER output at the end of the buffer -/

/-- C14: when `iotex_pk_write_key_der` or `iotex_pk_write_pubkey_der`
succeeds on a buffer of `size = buf.length` bytes and returns the length
`L`, then `0 < L ≤ size`, the buffer keeps its size, the DER encoding of the
key's structure has `L` bytes and occupies exactly the last `L` bytes of the
buffer, from offset `size - L` on, and the bytes before it are untouched. -/
theorem write_der_at_end_of_buffer (codec : pk_der_codec) (ctx : iotex_pk_context)
    (buf : List Nat) (L : Nat) (out : List Nat) :
    (iotex_pk_write_key_der codec ctx buf = some (L, out) →
      0 < L ∧ L ≤ buf.length ∧ out.length = buf.length ∧
      (∃ fields der, codec.key_fields (iotex_pk_get_type ctx) ctx.pk_ctx = some fields ∧
        der_sequence fields = some der ∧ der.length = L ∧
        out.drop (buf.length - L) = der) ∧
      out.take (buf.length - L) = buf.take (buf.length - L)) ∧
    (iotex_pk_write_pubkey_der codec ctx buf = some (L, out) →
      0 < L ∧ L ≤ buf.length ∧ out.length = buf.length ∧
      (∃ fields der, codec.pubkey_fields (iotex_pk_get_type ctx) ctx.pk_ctx = some fields ∧
        der_sequence fields = some der ∧ der.length = L ∧
        out.drop (buf.length - L) = der) ∧
      out.take (buf.length - L) = buf.take (buf.length - L)) := by
  constructor
  · intro h
    unfold iotex_pk_write_key_der at h
    cases hc : ctx.pk_info with
    | none => simp [hc] at h
    | some info =>
      cases hf : codec.key_fields info.type ctx.pk_ctx with
      | none => simp [hc, hf] at h
      | some fields =>
        simp only [hc, hf] at h
        obtain ⟨a, b, c, ⟨der, d1, d2, d3⟩, e⟩ := pk_write_der_sequence_layout buf fields L out h
        exact ⟨a, b, c, ⟨fields, der, by simp only [iotex_pk_get_type, hc, hf], d1, d2, d3⟩, e⟩
  · intro h
    unfold iotex_pk_write_pubkey_der at h
    cases hc : ctx.pk_info with
    | none => simp [hc] at h
    | some info =>
      cases hf : codec.pubkey_fields info.type ctx.pk_ctx with
      | none => simp [hc, hf] at h
      | some fields =>
        simp only [hc, hf] at h
        obtain ⟨a, b, c, ⟨der, d1, d2, d3⟩, e⟩ := pk_write_der_sequence_layout buf fields L out h
        exact ⟨a, b, c, ⟨fields, der, by simp only [iotex_pk_get_type, hc, hf], d1, d2, d3⟩, e⟩

/-- C14 at an RSA key and a buffer of 16 bytes: the private key takes the
last 11 bytes, the public key the last 10, the bytes before stay as they
were; a buffer of 10 bytes is too small for the private key. -/
theorem write_der_at_end_of_buffer_witness :
    iotex_pk_write_key_der sample_der_codec (sample_ctx IOTEX_PK_RSA 2048 16)
        (List.replicate 16 255)
      = some (11, [255, 255, 255, 255, 255, 48, 9, 2, 1, 0, 2, 1, 33, 2, 1, 3]) ∧
    iotex_pk_write_pubkey_der sample_der_codec (sample_ctx IOTEX_PK_RSA 2048 16)
        (List.replicate 16 255)
      = some (10, [255, 255, 255, 255, 255, 255, 48, 8, 48, 2, 5, 0, 3, 2, 0, 33]) ∧
    iotex_pk_write_key_der sample_der_codec (sample_ctx IOTEX_PK_RSA 2048 16)
        (List.replicate 10 255) = none ∧
    (0 < 11 ∧ 11 ≤ (List.replicate 16 255).length ∧
      [255, 255, 255, 255, 255, 48, 9, 2, 1, 0, 2, 1, 33, 2, 1, 3].length
        = (List.replicate 16 255).length ∧
      (∃ fields der,
        sample_der_codec.key_fields (iotex_pk_get_type (sample_ctx IOTEX_PK_RSA 2048 16))
          (sample_ctx IOTEX_PK_RSA 2048 16).pk_ctx = some fields ∧
        der_sequence fields = some der ∧ der.length = 11 ∧
        [255, 255, 255, 255, 255, 48, 9, 2, 1, 0, 2, 1, 33, 2, 1, 3].drop
          ((List.replicate 16 255).length - 11) = der) ∧
      [255, 255, 255, 255, 255, 48, 9, 2, 1, 0, 2, 1, 33, 2, 1, 3].take
          ((List.replicate 16 255).length - 11)
        = (List.replicate 16 255).take ((List.replicate 16 255).length - 11)) :=
  ⟨by decide, by decide, by decide,
   (write_der_at_end_of_buffer sample_der_codec (sample_ctx IOTEX_PK_RSA 2048 16)
      (List.replicate 16 255) 11
      [255, 255, 255, 255, 255, 48, 9, 2, 1, 0, 2, 1, 33, 2, 1, 3]).1 (by decide)⟩

/-! ## C21: the ASN.1 overhead of an ECDSA signature -/

/-- C21: the ASN.1 overhead 11 that the last block of
`IOTEX_PK_SIGNATURE_MAX_SIZE` adds to `PSA_VENDOR_ECDSA_SIGNATURE_MAX_SIZE`
is `(1+2) + 2*(1+2+1)`; and it bounds the growth of the encoding: the
SEQUENCE of two INTEGERs that encodes a raw `r || s` signature of `n` bytes
consists of three headers of one type byte and their length octets and of
the two contents, each with at most one byte more than its half of the raw
signature, so that with at most 2 length octets per header it is at most
`n + 11` bytes long. For every raw signature of at most 249 bytes the
encoding exists, has such headers and is within `n + 11` bytes. -/
theorem ecdsa_asn1_overhead_bound :
    (1 + 2) + 2 * (1 + 2 + 1) = 11 ∧
    (∀ c : pk_build_config, sig_max_psa_ecdsa_block c 0 =
      c.PSA_VENDOR_ECDSA_SIGNATURE_MAX_SIZE + ((1 + 2) + 2 * (1 + 2 + 1))) ∧
    (∀ raw der : List Nat, ecdsa_sig_asn1_from_raw raw = some der →
      ∃ lq lr ls cr cs : List Nat,
        cr = der_integer_content (raw.take (raw.length / 2)) ∧
        cs = der_integer_content (raw.drop (raw.length / 2)) ∧
        der_length_octets cr.length = some lr ∧
        der_length_octets cs.length = some ls ∧
        der_length_octets ((1 + lr.length + cr.length) + (1 + ls.length + cs.length))
          = some lq ∧
        der = 0x30 :: (lq ++ ((0x02 :: (lr ++ cr)) ++ (0x02 :: (ls ++ cs)))) ∧
        cr.length ≤ raw.length / 2 + 1 ∧
        cs.length ≤ (raw.length - raw.length / 2) + 1 ∧
        (lq.length ≤ 2 → lr.length ≤ 2 → ls.length ≤ 2 → der.length ≤ raw.length + 11)) ∧
    (∀ raw : List Nat, raw.length ≤ 249 →
      ∃ der, ecdsa_sig_asn1_from_raw raw = some der ∧ der.length ≤ raw.length + 11) := by
  have hcr : ∀ raw : List Nat,
      (der_integer_content (raw.take (raw.length / 2))).length ≤ raw.length / 2 + 1 := by
    intro raw
    have h := (der_integer_content_length (raw.take (raw.length / 2))).2
    rw [List.length_take] at h
    omega
  have hcs : ∀ raw : List Nat,
      (der_integer_content (raw.drop (raw.length / 2))).length
        ≤ (raw.length - raw.length / 2) + 1 := by
    intro raw
    have h := (der_integer_content_length (raw.drop (raw.length / 2))).2
    rw [List.length_drop] at h
    exact h
  refine ⟨rfl, ?_, ?_, ?_⟩
  · intro c
    simp [sig_max_psa_ecdsa_block]
  · intro raw der h
    obtain ⟨lq, lr, ls, h1, h2, h3, hder⟩ := ecdsa_sig_asn1_shape raw der h
    refine ⟨lq, lr, ls, _, _, rfl, rfl, h1, h2, h3, hder, hcr raw, hcs raw, ?_⟩
    intro a b c
    have e1 := hcr raw
    have e2 := hcs raw
    rw [hder]
    simp only [List.length_cons, List.length_append]
    omega
  · intro raw hn
    have e1 := hcr raw
    have e2 := hcs raw
    obtain ⟨lr, h1, _, r1⟩ := der_length_octets_short
      (der_integer_content (raw.take (raw.length / 2))).length (by omega)
    obtain ⟨ls, h2, _, s1⟩ := der_length_octets_short
      (der_integer_content (raw.drop (raw.length / 2))).length (by omega)
    have r2 := r1 (by omega)
    have s2 := s1 (by omega)
    obtain ⟨lq, h3, q1, _⟩ := der_length_octets_short
      ((1 + lr.length + (der_integer_content (raw.take (raw.length / 2))).length) +
       (1 + ls.length + (der_integer_content (raw.drop (raw.length / 2))).length)) (by omega)
    refine ⟨_, ecdsa_sig_asn1_of_octets raw lq lr ls h1 h2 h3, ?_⟩
    simp only [List.length_cons, List.length_append]
    omega

/-- C21 at the raw signature `r = 80 01`, `s = 00 7F`: `r` gets a leading
zero, `s` loses one, the encoding has 10 bytes, within 4 + 11; and at
`r = 80`, `s = 80` it has 10 bytes for 2. -/
theorem ecdsa_asn1_overhead_bound_witness :
    ecdsa_sig_asn1_from_raw [0x80, 0x01, 0x00, 0x7F]
      = some [0x30, 8, 0x02, 3, 0, 0x80, 0x01, 0x02, 1, 0x7F] ∧
    ecdsa_sig_asn1_from_raw [0x80, 0x80]
      = some [0x30, 8, 0x02, 2, 0, 0x80, 0x02, 2, 0, 0x80] ∧
    (∃ der, ecdsa_sig_asn1_from_raw [0x80, 0x01, 0x00, 0x7F] = some der ∧
      der.length ≤ [0x80, 0x01, 0x00, 0x7F].length + 11) :=
  ⟨by decide, by decide,
   ecdsa_asn1_overhead_bound.2.2.2 [0x80, 0x01, 0x00, 0x7F] (by decide)⟩

end Iotex
